import Mathlib

/-!
flvcast: the FLV demuxer (`flv.c`) and the paced streaming loop (`main.c`, `rtmp.c`).

A shallow embedding of the C sources.

Machine model (LP64, the ABI of the 64-bit POSIX systems the program is built for):
`unsigned char` is 8 bits, `int` is 32 bits two's complement, `long` and
`unsigned long` are 64 bits.  An `unsigned char` is a `Fin 256`.  A value of type
`int` or `unsigned long` is carried as a natural number, the bit pattern of the
object; `shl_int` wraps at 32 bits and `int_to_ulong` is the sign extension that the
conversion `int -> unsigned long` performs.

A `FILE` is the byte content of a regular file together with the file position and
the end-of-file indicator; reads fail only by running out of bytes.

The tag buffer `f->tag` is a map from index to byte.  Its capacity is
`FLV_MAX_TAG_SIZE`; a store or load outside `0 .. FLV_MAX_TAG_SIZE - 1` is undefined
behaviour in C and is the result `none` here.

A run of a loop or of `main` is the list of the calls it makes (`Event`) together with how it
ends.  What the collaborators answer (signals, `RTMP_*`, `select`, `malloc`, the file
system, `getopt`, `atoi`) is given from outside: `Iter`, `World`, `Opt`.
-/

namespace Flvcast

/-! ## Machine integers -/

/-- The C type `unsigned char`. -/
abbrev UChar := Fin 256

/-- Width of `int`. -/
def INT_BITS : Nat := 32

/-- Width of `long` and `unsigned long`. -/
def ULONG_BITS : Nat := 64

/-- Width of `useconds_t`, the type of the parameter of `usleep`: an `unsigned int`. -/
def USECONDS_BITS : Nat := 32

/-- The expression `a << k` on a promoted `unsigned char` operand `a`: the result has type `int`,
and is given as its 32-bit two's complement bit pattern. -/
def shl_int (a k : Nat) : Nat := (a <<< k) % 2 ^ INT_BITS

/-- Conversion of an `int` (given as its 32-bit pattern) to `unsigned long`: a negative `int`
(bit 31 set) is sign-extended. -/
def int_to_ulong (x : Nat) : Nat :=
  if x < 2 ^ (INT_BITS - 1) then x else x + (2 ^ ULONG_BITS - 2 ^ INT_BITS)

/-- Conversion of an `unsigned long` to `long`. -/
def ulong_to_long (x : Nat) : Int :=
  if x < 2 ^ (ULONG_BITS - 1) then (x : Int) else (x : Int) - 2 ^ ULONG_BITS

/-! ## flv.c -/

def FLV_FILE_HEADER_SIZE : Nat := 9

def FLV_TAG_HEADER_SIZE : Nat := 11

def FLV_TAG_PAYLOAD_MAX_SIZE : Nat := 0xFFFFFF

def FLV_TAG_FOOTER_SIZE : Nat := 4

def FLV_MAX_TAG_SIZE : Nat :=
  FLV_TAG_HEADER_SIZE + FLV_TAG_PAYLOAD_MAX_SIZE + FLV_TAG_FOOTER_SIZE

/-- A stdio stream on a regular file opened for reading. -/
structure FILE where
  /-- the bytes of the file -/
  data : List UChar
  /-- the file position indicator -/
  pos : Nat
  /-- the end-of-file indicator -/
  eof : Bool

/-- Number of bytes between the file position and the end of the file. -/
def FILE.remaining (fp : FILE) : Nat := fp.data.length - fp.pos

/-- The object `struct flv`. -/
structure flv where
  file : FILE
  tag : Nat → UChar
  tagSize : Nat

/-- Copy the bytes `src` into the buffer at offset `off`. -/
def store (buf : Nat → UChar) (off : Nat) (src : List UChar) : Nat → UChar :=
  fun i => if off ≤ i then (src[i - off]?).getD (buf i) else buf i

/-- The call `fopen(filename, "rb")`: `content` is what the file system holds under the name,
`none` when the file cannot be opened. -/
def fopen (content : Option (List UChar)) : Option FILE :=
  match content with
  | none => none
  | some d => some { data := d, pos := 0, eof := false }

/-- The call `fread(f->tag + off, size, 1, fp)`.  The result is `none` when the destination
does not lie inside `f->tag`; otherwise the return value of `fread` (1 for a whole
element, 0 for a short read), the buffer and the stream afterwards.  A short read
stores the bytes that were left, moves to the end of the file and sets the
end-of-file indicator. -/
def fread (buf : Nat → UChar) (off size : Nat) (fp : FILE) :
    Option (Nat × (Nat → UChar) × FILE) :=
  if FLV_MAX_TAG_SIZE < off + size then none
  else if size = 0 then some (0, buf, fp)
  else
    let avail := (fp.data.drop fp.pos).take size
    if avail.length = size then
      some (1, store buf off avail, { fp with pos := fp.pos + size })
    else
      some (0, store buf off avail, { fp with pos := fp.pos + avail.length, eof := true })

/-- The call `feof(fp)`. -/
def feof (fp : FILE) : Bool := fp.eof

/-- The call `fseek(fp, offset, SEEK_SET)` with `offset` of type `long`: fails (`none`) on a
negative offset, otherwise sets the position and clears the end-of-file indicator. -/
def fseek (fp : FILE) (offset : Int) : Option FILE :=
  if offset < 0 then none else some { fp with pos := offset.toNat, eof := false }

/-- Helper `u24be(p)` with `p = tag + off`: `*p << 16 | *(p + 1) << 8 | *(p + 2)` computed in
`int` and returned as `unsigned long`. -/
def u24be (tag : Nat → UChar) (off : Nat) : Nat :=
  int_to_ulong
    (shl_int (tag off).val 16 ||| shl_int (tag (off + 1)).val 8 ||| (tag (off + 2)).val)

/-- Helper `u32be(p)` with `p = tag + off`:
`*p << 24 | *(p + 1) << 16 | *(p + 2) << 8 | *(p + 3)` computed in `int` and returned
as `unsigned long`. -/
def u32be (tag : Nat → UChar) (off : Nat) : Nat :=
  int_to_ulong
    (shl_int (tag off).val 24 ||| shl_int (tag (off + 1)).val 16
      ||| shl_int (tag (off + 2)).val 8 ||| (tag (off + 3)).val)

/-- The call `u32be(f->tag + off)` with the four loads checked against the buffer. -/
def u32be_at (tag : Nat → UChar) (off : Nat) : Option Nat :=
  if FLV_MAX_TAG_SIZE < off + 4 then none else some (u32be tag off)

/-- Function `flv_open`.  `mem` is the block `malloc` returns (`none` when it fails; the
buffer and `tagSize` hold whatever the block held), `content` the file the name
designates.  The result `none` is the `NULL` return. -/
def flv_open (mem : Option ((Nat → UChar) × Nat)) (content : Option (List UChar)) :
    Option flv :=
  match mem with
  | none => none
  | some (buf, sz) =>
    match fopen content with
    | none => none
    | some fp =>
      match fread buf 0 FLV_FILE_HEADER_SIZE fp with
      | none => none
      | some (n, tag1, fp1) =>
        if n ≠ 1 then none
        else
          let flvHeader := u32be tag1 0
          if flvHeader ≠ 0x464C5601 then none
          else
            let flvStartTag := u32be tag1 5
            let seeked : Option FILE :=
              if flvStartTag ≠ FLV_FILE_HEADER_SIZE then fseek fp1 (ulong_to_long flvStartTag)
              else some fp1
            match seeked with
            | none => none
            | some fp2 =>
              match fread tag1 0 FLV_TAG_FOOTER_SIZE fp2 with
              | none => none
              | some (m, tag2, fp3) =>
                if m ≠ 1 then none
                else some { file := fp3, tag := tag2, tagSize := sz }

/-- Function `flv_next`.  The result `none` is an access outside `f->tag`; otherwise the
`long` return value and the object afterwards.  The sums of `unsigned long` values
stay far below `2 ^ 64` (`u24be` is below `2 ^ 24`), so they are written without a
reduction. -/
def flv_next (f : flv) : Option (Int × flv) :=
  match fread f.tag 0 FLV_TAG_HEADER_SIZE f.file with
  | none => none
  | some (n, tag1, fp1) =>
    if n ≠ 1 then
      if feof fp1 then some (0, { f with tag := tag1, file := fp1 })
      else some (-1, { f with tag := tag1, file := fp1 })
    else
      let payloadSize := u24be tag1 1
      match fread tag1 FLV_TAG_HEADER_SIZE (payloadSize + FLV_TAG_FOOTER_SIZE) fp1 with
      | none => none
      | some (m, tag2, fp2) =>
        if m ≠ 1 then some (-1, { f with tag := tag2, file := fp2 })
        else
          match u32be_at tag2 (FLV_TAG_HEADER_SIZE + payloadSize) with
          | none => none
          | some storedPayloadSize =>
            if storedPayloadSize ≠ FLV_TAG_HEADER_SIZE + payloadSize then
              some (-1, { f with tag := tag2, file := fp2 })
            else
              let tagSize := FLV_TAG_HEADER_SIZE + payloadSize + FLV_TAG_FOOTER_SIZE
              some (ulong_to_long tagSize, { file := fp2, tag := tag2, tagSize := tagSize })

/-- Function `flv_get_tag`. -/
def flv_get_tag (f : flv) : Nat → UChar := f.tag

/-- Function `flv_get_tag_size`. -/
def flv_get_tag_size (f : flv) : Nat := f.tagSize

/-- Function `flv_get_timestamp`: `u24be(f->tag + 4) | (*(f->tag + 7) << 24)`; the left operand
is an `unsigned long`, the right one an `int` that is converted to `unsigned long`. -/
def flv_get_timestamp (f : flv) : Nat :=
  u24be f.tag 4 ||| int_to_ulong (shl_int (f.tag 7).val 24)

/-- Assignment of an `unsigned long` value to an `unsigned char` object. -/
def to_uchar (x : Nat) : UChar := Fin.ofNat x

/-- Function `flv_set_timestamp`. -/
def flv_set_timestamp (f : flv) (timestamp : Nat) : flv :=
  let t4 := Function.update f.tag 4 (to_uchar ((timestamp >>> 16) &&& 0xFF))
  let t5 := Function.update t4 5 (to_uchar ((timestamp >>> 8) &&& 0xFF))
  let t6 := Function.update t5 6 (to_uchar (timestamp &&& 0xFF))
  let t7 := Function.update t6 7 (to_uchar ((timestamp >>> 24) &&& 0xFF))
  { f with tag := t7 }

/-! ## Reference readings of the byte fields -/

/-- Big-endian value of the three bytes `b0 b1 b2`. -/
def be24 (b0 b1 b2 : UChar) : Nat := b0.val * 2 ^ 16 + b1.val * 2 ^ 8 + b2.val

/-- Big-endian value of the four bytes `b0 b1 b2 b3`. -/
def be32 (b0 b1 b2 b3 : UChar) : Nat :=
  b0.val * 2 ^ 24 + b1.val * 2 ^ 16 + b2.val * 2 ^ 8 + b3.val

/-- Byte of the file at absolute offset `i` (0 past the end). -/
def FILE.byteAt (fp : FILE) (i : Nat) : UChar := fp.data.getD i 0

/-- A handle on an in-memory byte sequence with an all-zero buffer, for examples. -/
def flvOf (bytes : List UChar) : flv :=
  { file := { data := bytes, pos := 0, eof := false }, tag := fun _ => 0, tagSize := 0 }

/-- Declared payload length of the tag that starts at the file position: the big-endian value of
the three bytes after the type byte. -/
def FILE.payloadLength (fp : FILE) : Nat :=
  be24 (fp.byteAt (fp.pos + 1)) (fp.byteAt (fp.pos + 2)) (fp.byteAt (fp.pos + 3))

/-- Footer of the tag that starts at the file position: the big-endian value of the four bytes
that follow its header and payload. -/
def FILE.footer (fp : FILE) : Nat :=
  be32 (fp.byteAt (fp.pos + 11 + fp.payloadLength))
    (fp.byteAt (fp.pos + 11 + fp.payloadLength + 1))
    (fp.byteAt (fp.pos + 11 + fp.payloadLength + 2))
    (fp.byteAt (fp.pos + 11 + fp.payloadLength + 3))

/-- Example source: one tag of type 9 with an empty payload, timestamp 0 and footer 11. -/
def emptyTag : List UChar := [9, 0, 0, 0, 0, 0, 0, 0, 0, 0, 0, 0, 0, 0, 0x0B]

/-- Buffer content after `flv_next` has read a whole tag: the header stored at offset 0, then
payload and footer stored at offset 11. -/
def tagImage (f : flv) : Nat → UChar :=
  store (store f.tag 0 ((f.file.data.drop f.file.pos).take 11)) 11
    ((f.file.data.drop (f.file.pos + 11)).take (f.file.payloadLength + 4))

/-- The object after `flv_next` has read `emptyTag` from `flvOf emptyTag`. -/
def emptyTagRead : flv :=
  { file := { data := emptyTag, pos := 15, eof := false },
    tag := tagImage (flvOf emptyTag), tagSize := 15 }

/-! ## The streaming loop of main.c and rtmp.c -/

/-- What the collaborators do during one pass through the streaming loop. -/
structure Iter where
  /-- a signal handler has run, setting `running = 0`, before the loop condition is tested -/
  signal : Bool
  /-- return value of `RTMP_Write` -/
  write_ret : Int
  /-- return value of `select` -/
  select_ret : Int
  /-- value of `FD_ISSET(fd, &set)` after `select` -/
  readable : Bool
  /-- value of `RTMP_ReadPacket(r, &packet) && RTMPPacket_IsReady(&packet)` -/
  packet : Bool

/-- Calls the loop makes, in the order it makes them. -/
inductive Event
  /-- the call `flv_next(flv)` and what it returned -/
  | flv_next (ret : Int)
  /-- the call `RTMP_Write(r, tag, tagSize)`: the `tagSize` bytes at `tag` -/
  | RTMP_Write (bytes : List UChar)
  /-- the call `select(fd + 1, &set, NULL, NULL, &tv)` -/
  | select
  /-- the call `RTMP_ReadPacket(r, &packet)` -/
  | RTMP_ReadPacket
  /-- the calls `RTMP_ClientPacket(r, &packet)` and `RTMPPacket_Free(&packet)` -/
  | RTMP_ClientPacket
  /-- the call `usleep(usec)`: `usec` is the value the `useconds_t` parameter receives, the
  `unsigned long` argument converted to 32 bits -/
  | usleep (usec : Nat)
  /-- the call `flv_open(...)` and whether it returned a handle (not `NULL`) -/
  | flv_open (opened : Bool)
  /-- the call `flv_get_tag(flv)` on a handle that `flv_open` returned -/
  | flv_get_tag
  /-- the call `flv_close(flv)` on a handle that `flv_open` returned -/
  | flv_close
  /-- the call `flv_get_tag(flv)` with `flv == NULL` -/
  | flv_get_tag_NULL
  /-- the call `flv_next(flv)` with `flv == NULL` -/
  | flv_next_NULL
  /-- the call `flv_close(flv)` with `flv == NULL` -/
  | flv_close_NULL
  /-- the call `RTMP_LogSetLevel(RTMP_LOGINFO)` -/
  | RTMP_LogSetLevel
  /-- the call `RTMP_LogSetOutput(stderr)` -/
  | RTMP_LogSetOutput
  /-- the call `RTMP_Alloc()` and whether it returned an object (not `NULL`) -/
  | RTMP_Alloc (ok : Bool)
  /-- the call `RTMP_Init(r)` -/
  | RTMP_Init
  /-- the call `RTMP_SetupURL(r, url)` and whether it returned non-zero -/
  | RTMP_SetupURL (ok : Bool)
  /-- the call `RTMP_EnableWrite(r)` -/
  | RTMP_EnableWrite
  /-- the call `RTMP_Connect(r, NULL)` and whether it returned non-zero -/
  | RTMP_Connect (ok : Bool)
  /-- the call `RTMP_ConnectStream(r, 0)` and whether it returned non-zero -/
  | RTMP_ConnectStream (ok : Bool)
  /-- the call `RTMP_Socket(r)` -/
  | RTMP_Socket
  /-- the assignment `running = 1` and the four calls `signal(..., sig_handler)` -/
  | signal_install
  /-- the four calls `signal(..., SIG_DFL)` after the label `restoreSig` -/
  | signal_restore
  /-- the call `RTMP_Free(r)` -/
  | RTMP_Free
  deriving DecidableEq

def EXIT_SUCCESS : Int := 0

def EXIT_FAILURE : Int := 1

/-- Variables of `main` that the streaming loop reads and writes. -/
structure LoopState where
  /-- the object `flv` points to -/
  flv : Flvcast.flv
  prevTimestamp : Nat
  /-- the flag `running` -/
  running : Bool
  ret : Int

/-- One pass through the body of the loop `while (running)` that reads and sends tags (the inner
loop of main.c, the loop of rtmp.c).  The result is the calls made, the variables afterwards
and whether the pass ended in `goto restoreSig`; `none` stands for an access outside the
tag buffer. -/
def loop_body (e : Iter) (s : LoopState) : Option (List Event × LoopState × Bool) :=
  match flv_next s.flv with
  | none => none
  | some (tagSize, f1) =>
    if tagSize = 0 then
      some ([Event.flv_next tagSize], { s with flv := f1, running := false }, false)
    else if tagSize < 0 then
      some ([Event.flv_next tagSize], { s with flv := f1, ret := EXIT_FAILURE }, true)
    else
      let w := Event.RTMP_Write ((List.range tagSize.toNat).map (flv_get_tag f1))
      if e.write_ret ≤ 0 then
        some ([Event.flv_next tagSize, w], { s with flv := f1, ret := EXIT_FAILURE }, true)
      else if e.select_ret = -1 then
        some ([Event.flv_next tagSize, w, Event.select],
          { s with flv := f1, ret := EXIT_FAILURE }, true)
      else
        let rd : List Event :=
          if e.readable then
            if e.packet then [Event.RTMP_ReadPacket, Event.RTMP_ClientPacket]
            else [Event.RTMP_ReadPacket]
          else []
        let timestamp := flv_get_timestamp f1
        if s.prevTimestamp < timestamp then
          some ([Event.flv_next tagSize, w, Event.select] ++ rd
              ++ [Event.usleep
                    (1000 * (timestamp - s.prevTimestamp) % 2 ^ ULONG_BITS % 2 ^ USECONDS_BITS)],
            { s with flv := f1, prevTimestamp := timestamp }, false)
        else
          some ([Event.flv_next tagSize, w, Event.select] ++ rd, { s with flv := f1 }, false)

/-- The loop `while (running) { ... }`, at most `fuel` tests of its condition; `env i` is what
the collaborators do in pass `i`.  The result is as for `loop_body`; `none` also
stands for `fuel` tests not being enough. -/
def stream_loop : Nat → (Nat → Iter) → Nat → LoopState → Option (List Event × LoopState × Bool)
  | 0, _, _, _ => none
  | fuel + 1, env, i, s =>
    if s.running = false ∨ (env i).signal = true then
      some ([], { s with running := false }, false)
    else
      match loop_body (env i) s with
      | none => none
      | some (evs, s1, true) => some (evs, s1, true)
      | some (evs, s1, false) =>
        match stream_loop fuel env (i + 1) s1 with
        | none => none
        | some (evs2, s2, jumped) => some (evs ++ evs2, s2, jumped)

/-- The loop as `main` enters it: `running = 1`, `prevTimestamp = 0`, `ret = EXIT_SUCCESS`,
with as many tests of the condition as the bytes left in the file can ever need. -/
def streaming (env : Nat → Iter) (f : flv) : Option (List Event × LoopState × Bool) :=
  stream_loop (f.file.remaining + 2) env 0
    { flv := f, prevTimestamp := 0, running := true, ret := EXIT_SUCCESS }

/-- Microseconds asked of `usleep` in the calls that come before the first `RTMP_Write`. -/
def usleep_before_write : List Event → Nat
  | [] => 0
  | Event.RTMP_Write _ :: _ => 0
  | Event.usleep n :: tl => n + usleep_before_write tl
  | _ :: tl => usleep_before_write tl

/-- The calls that come after the `k`-th `RTMP_Write` (all of them for `k = 0`). -/
def after_write : Nat → List Event → List Event
  | 0, tr => tr
  | _ + 1, [] => []
  | k + 1, Event.RTMP_Write _ :: tl => after_write k tl
  | k + 1, _ :: tl => after_write (k + 1) tl

/-- Microseconds asked of `usleep` after the `k`-th `RTMP_Write` and before the next one (or the
end of the run). -/
def pause_after_write (k : Nat) (tr : List Event) : Nat :=
  usleep_before_write (after_write k tr)

/-- The byte strings handed to `RTMP_Write`, in order. -/
def writes : List Event → List (List UChar)
  | [] => []
  | Event.RTMP_Write b :: tl => b :: writes tl
  | _ :: tl => writes tl

/-- Example source: one tag with an empty payload whose timestamp field holds the bytes
`t4 t5 t6` (low 24 bits, big-endian) and `t7` (high byte). -/
def tsTag (t4 t5 t6 t7 : UChar) : List UChar :=
  [9, 0, 0, 0, t4, t5, t6, t7, 0, 0, 0, 0, 0, 0, 0x0B]

/-- Example collaborators: no signal, every write and poll succeeds, nothing to read. -/
def calm : Nat → Iter :=
  fun _ => { signal := false, write_ret := 15, select_ret := 0, readable := false,
             packet := false }

/-- Example source: two tags with timestamps 100 and 250. -/
def pacedSource : List UChar := tsTag 0 0 100 0 ++ tsTag 0 0 250 0

/-- The object after `flv_next` has read the first tag of `pacedSource`. -/
def pacedRead1 : flv :=
  { file := { data := pacedSource, pos := 15, eof := false },
    tag := tagImage (flvOf pacedSource), tagSize := 15 }

/-- The object after `flv_next` has read the second tag of `pacedSource`. -/
def pacedRead2 : flv :=
  { file := { data := pacedSource, pos := 30, eof := false },
    tag := tagImage pacedRead1, tagSize := 15 }

/-- Microseconds asked of `usleep` in all the calls of a run. -/
def usleep_total : List Event → Nat
  | [] => 0
  | Event.usleep n :: tl => n + usleep_total tl
  | _ :: tl => usleep_total tl

/-- The values that the calls of `usleep` in a run receive, in order. -/
def usleep_calls : List Event → List Nat
  | [] => []
  | Event.usleep n :: tl => n :: usleep_calls tl
  | _ :: tl => usleep_calls tl

/-- The loop variables as `main` sets them before the loop. -/
def loop_entry (f : flv) : LoopState :=
  { flv := f, prevTimestamp := 0, running := true, ret := EXIT_SUCCESS }

/-- The passes a run of the loop makes: for each one its number and the loop variables at its
start. -/
def passes : Nat → (Nat → Iter) → Nat → LoopState → List (Nat × LoopState)
  | 0, _, _, _ => []
  | fuel + 1, env, i, s =>
    if s.running = false ∨ (env i).signal = true then []
    else
      match loop_body (env i) s with
      | some (_, s1, false) => (i, s) :: passes fuel env (i + 1) s1
      | _ => [(i, s)]

/-- The tags that successive calls of `flv_next` return from the object `f` on, up to the first
call that does not succeed (at most `fuel` calls); a tag is the `tagSize` bytes of the
buffer after the call. -/
def next_tags : Nat → flv → List (List UChar)
  | 0, _ => []
  | fuel + 1, f =>
    match flv_next f with
    | some (r, f1) =>
      if 0 < r then (List.range r.toNat).map (flv_get_tag f1) :: next_tags fuel f1 else []
    | none => []

/-- A written byte string that is a whole tag: its length is 11 + 4 + the payload length that
its own bytes 1..3 declare. -/
def whole_tag (b : List UChar) : Prop :=
  b.length = 11 + be24 (b.getD 1 0) (b.getD 2 0) (b.getD 3 0) + 4

/-- A pass in which a call fails: `flv_next` returns a negative value, or `RTMP_Write` is called
and returns a value <= 0, or `select` is called and returns -1. -/
def pass_fails (e : Iter) (s : LoopState) : Bool :=
  match flv_next s.flv with
  | some (r, _) =>
    decide (r < 0) ||
      (decide (0 < r) &&
        (decide (e.write_ret ≤ 0) || (decide (0 < e.write_ret) && decide (e.select_ret = -1))))
  | none => false

/-- The calls on which a run can end in `goto restoreSig`: a `flv_next` that returned a negative
value, an `RTMP_Write`, a `select`. -/
def Event.ends_failed_run : Event → Bool
  | Event.flv_next r => decide (r < 0)
  | Event.RTMP_Write _ => true
  | Event.select => true
  | _ => false

/-! ## The two programs: rtmp.c and main.c -/

/-- How a run of `main` ends. -/
inductive Outcome
  /-- `return ret` from `main`, or `exit(status)` -/
  | exit (status : Int)
  /-- a load through a `NULL` handle inside `flv_next` or `flv_close`, a store through the `NULL`
  object inside `RTMP_Init`, or the use of the variable `flv` before it has a value:
  undefined behaviour -/
  | fault
  deriving DecidableEq

/-- What is outside the program during one run. -/
structure World where
  /-- the block `malloc` returns inside `flv_open` (`none`: `NULL`) -/
  mem : Option ((Nat → UChar) × Nat)
  /-- the content of the file named on the command line (`none`: it cannot be opened) -/
  content : Option (List UChar)
  /-- `RTMP_Alloc()` returns an object -/
  alloc : Bool
  /-- `RTMP_SetupURL` returns non-zero -/
  setupURL : Bool
  /-- `RTMP_Connect` returns non-zero -/
  connect : Bool
  /-- `RTMP_ConnectStream` returns non-zero -/
  connectStream : Bool
  /-- main.c: a signal handler has run before test number `k` of the outer loop condition -/
  outer_signal : Nat → Bool
  /-- the collaborators during pass `i` of the loop that reads and sends tags -/
  env : Nat → Iter

/-- rtmp.c from the label `closeFLV` on: `flv_close(flv)` and `return ret`. -/
def rtmp.closeFLV (h : Option flv) (ret : Int) : List Event × Outcome :=
  match h with
  | some _ => ([Event.flv_close], Outcome.exit ret)
  | none => ([Event.flv_close_NULL], Outcome.fault)

/-- rtmp.c from the label `freeRTMP` on. -/
def rtmp.freeRTMP (h : Option flv) (ret : Int) : List Event × Outcome :=
  (Event.RTMP_Free :: (rtmp.closeFLV h ret).1, (rtmp.closeFLV h ret).2)

/-- rtmp.c from the label `restoreSig` on. -/
def rtmp.restoreSig (h : Option flv) (ret : Int) : List Event × Outcome :=
  (Event.signal_restore :: (rtmp.freeRTMP h ret).1, (rtmp.freeRTMP h ret).2)

/-- Function `main` of rtmp.c, called with `argc` arguments.  The result is the calls made and
how the run ends; `none` stands for the loop not having returned.  `RTMP_Init(r)` is called
before `r` is tested: when `RTMP_Alloc` has returned `NULL` the call stores through the
`NULL` pointer, and the branch `if (r == NULL)` after it is not reached. -/
def rtmp.main (argc : Nat) (w : World) : Option (List Event × Outcome) :=
  if argc ≠ 3 then some ([], Outcome.exit EXIT_SUCCESS)
  else
    let h := flv_open w.mem w.content
    let pre : List Event :=
      [Event.flv_open h.isSome, Event.RTMP_LogSetLevel, Event.RTMP_LogSetOutput,
        Event.RTMP_Alloc w.alloc, Event.RTMP_Init]
    if w.alloc = false then some (pre, Outcome.fault)
    else if w.connect = false then
      some (pre ++ [Event.RTMP_SetupURL w.setupURL, Event.RTMP_EnableWrite,
          Event.RTMP_Connect false] ++ (rtmp.freeRTMP h EXIT_FAILURE).1,
        (rtmp.freeRTMP h EXIT_FAILURE).2)
    else if w.connectStream = false then
      some (pre ++ [Event.RTMP_SetupURL w.setupURL, Event.RTMP_EnableWrite,
          Event.RTMP_Connect true, Event.RTMP_ConnectStream false]
          ++ (rtmp.freeRTMP h EXIT_FAILURE).1,
        (rtmp.freeRTMP h EXIT_FAILURE).2)
    else
      let pre2 : List Event :=
        pre ++ [Event.RTMP_SetupURL w.setupURL, Event.RTMP_EnableWrite,
          Event.RTMP_Connect true, Event.RTMP_ConnectStream true, Event.RTMP_Socket,
          Event.signal_install]
      match h with
      | none =>
        if (w.env 0).signal = true then
          some (pre2 ++ [Event.flv_get_tag_NULL] ++ (rtmp.restoreSig none EXIT_SUCCESS).1,
            (rtmp.restoreSig none EXIT_SUCCESS).2)
        else some (pre2 ++ [Event.flv_get_tag_NULL, Event.flv_next_NULL], Outcome.fault)
      | some f =>
        match streaming w.env f with
        | none => none
        | some (tr, s, _) =>
          some (pre2 ++ [Event.flv_get_tag] ++ tr ++ (rtmp.restoreSig (some f) s.ret).1,
            (rtmp.restoreSig (some f) s.ret).2)

/-- The type `enum PlayMode` of main.c. -/
inductive PlayMode
  | none
  | file
  | playlist
  | exec
  deriving DecidableEq

/-- One answer of `getopt(argc, argv, "vl:f:p:e:s")`. -/
inductive Opt
  /-- option `-v` -/
  | v
  /-- option `-l` with what `atoi(optarg)` returns -/
  | l (atoi : Int)
  /-- option `-f`; `optarg` is given as its index in `argv` -/
  | f (optarg : Nat)
  /-- option `-p` -/
  | p (optarg : Nat)
  /-- option `-e` -/
  | e (optarg : Nat)
  /-- option `-s` -/
  | s
  /-- the answer `'?'`: an option letter that is not known, or a missing argument -/
  | unknown
  deriving DecidableEq

/-- The variables that the option loop of main.c sets. -/
structure Options where
  playMode : PlayMode
  /-- index in `argv` of the string `playParam` points to (`none` before it is set) -/
  playParam : Option Nat
  /-- an `unsigned int` -/
  loops : Nat
  verbose : Bool
  shuffle : Bool

/-- The body of `switch (opt)` for one answer of `getopt`; `none` is `exit(EXIT_FAILURE)`. -/
def option_case (o : Opt) (st : Options) : Option Options :=
  match o with
  | Opt.v => some { st with verbose := true }
  | Opt.f a =>
    if st.playMode ≠ PlayMode.none then none
    else if st.shuffle = true then none
    else some { st with playMode := PlayMode.file, playParam := some a }
  | Opt.p a =>
    if st.playMode ≠ PlayMode.none then none
    else some { st with playMode := PlayMode.playlist, playParam := some a }
  | Opt.e a =>
    if st.playMode ≠ PlayMode.none then none
    else if st.loops ≠ 0 then none
    else if st.shuffle = true then none
    else some { st with playMode := PlayMode.exec, playParam := some a }
  | Opt.l n =>
    if st.playMode = PlayMode.exec then none
    else some { st with loops := (n % 2 ^ 32).toNat }
  | Opt.s =>
    if st.playMode ≠ PlayMode.playlist then none
    else some { st with shuffle := true }
  | Opt.unknown => none

/-- The loop `while ((opt = getopt(...)) != -1)` over the answers of `getopt`. -/
def option_loop : List Opt → Options → Option Options
  | [], st => some st
  | o :: tl, st =>
    match option_case o st with
    | none => none
    | some st1 => option_loop tl st1

/-- The option parsing of `main` in main.c: `opts` are the answers of `getopt` in order and
`positional` is `argc - optind` afterwards.  The result `none` is `exit(EXIT_FAILURE)`. -/
def parse_arguments (opts : List Opt) (positional : Nat) : Option Options :=
  match option_loop opts
      { playMode := PlayMode.none, playParam := none, loops := 0, verbose := false,
        shuffle := false } with
  | none => none
  | some st =>
    if st.playMode = PlayMode.none then none
    else if positional ≠ 1 then none
    else some st

/-- The outer loop `while (running)` of main.c, from test number `k` of its condition on, at most
`fuel` tests.  The result is the calls made and the value of `ret` at the label
`restoreSig`, or no value when the run has faulted before; `none` stands for a loop not
having returned. -/
def flvcast.play : Nat → PlayMode → World → Nat → Bool → Int →
    Option (List Event × Option Int)
  | 0, _, _, _, _, _ => none
  | fuel + 1, mode, w, k, running, ret =>
    if running = false ∨ w.outer_signal k = true then some ([], some ret)
    else
      match mode with
      | PlayMode.file =>
        match flv_open w.mem w.content with
        | none =>
          if (w.env 0).signal = true then
            some ([Event.flv_open false, Event.flv_get_tag_NULL, Event.flv_close_NULL], none)
          else
            some ([Event.flv_open false, Event.flv_get_tag_NULL, Event.flv_next_NULL], none)
        | some f =>
          match stream_loop (f.file.remaining + 2) w.env 0
              { flv := f, prevTimestamp := 0, running := true, ret := ret } with
          | none => none
          | some (tr, s, true) =>
            some ([Event.flv_open true, Event.flv_get_tag] ++ tr, some s.ret)
          | some (tr, s, false) =>
            match flvcast.play fuel mode w (k + 1) s.running s.ret with
            | none => none
            | some (tr2, r) =>
              some ([Event.flv_open true, Event.flv_get_tag] ++ tr ++ [Event.flv_close] ++ tr2,
                r)
      | _ => some ([], none)

/-- Function `main` of main.c: `opts` and `positional` are what `getopt` yields.  The result is
as for `rtmp.main`.  Two tests of the outer loop condition are allowed for: the inner loop
is only left, without a jump, with `running` cleared. -/
def flvcast.main (opts : List Opt) (positional : Nat) (w : World) :
    Option (List Event × Outcome) :=
  match parse_arguments opts positional with
  | none => some ([], Outcome.exit EXIT_FAILURE)
  | some o =>
    let pre : List Event :=
      [Event.RTMP_LogSetLevel, Event.RTMP_LogSetOutput, Event.RTMP_Alloc w.alloc]
    if w.alloc = false then some (pre, Outcome.exit EXIT_FAILURE)
    else if w.setupURL = false then
      some (pre ++ [Event.RTMP_Init, Event.RTMP_SetupURL false, Event.RTMP_Free],
        Outcome.exit EXIT_FAILURE)
    else if w.connect = false then
      some (pre ++ [Event.RTMP_Init, Event.RTMP_SetupURL true, Event.RTMP_EnableWrite,
          Event.RTMP_Connect false, Event.RTMP_Free], Outcome.exit EXIT_FAILURE)
    else if w.connectStream = false then
      some (pre ++ [Event.RTMP_Init, Event.RTMP_SetupURL true, Event.RTMP_EnableWrite,
          Event.RTMP_Connect true, Event.RTMP_ConnectStream false, Event.RTMP_Free],
        Outcome.exit EXIT_FAILURE)
    else
      let pre2 : List Event :=
        pre ++ [Event.RTMP_Init, Event.RTMP_SetupURL true, Event.RTMP_EnableWrite,
          Event.RTMP_Connect true, Event.RTMP_ConnectStream true, Event.RTMP_Socket,
          Event.signal_install]
      match flvcast.play 2 o.playMode w 0 true EXIT_SUCCESS with
      | none => none
      | some (tr, none) => some (pre2 ++ tr, Outcome.fault)
      | some (tr, some ret) =>
        some (pre2 ++ tr ++ [Event.signal_restore, Event.RTMP_Free], Outcome.exit ret)

/-- Example file: the 9-byte FLV header and the previous-tag-size field 0. -/
def flvHeader : List UChar := [0x46, 0x4C, 0x56, 0x01, 0x05, 0, 0, 0, 9, 0, 0, 0, 0]

/-- Example world: `bytes` is the file, every allocation and connection succeeds, no signal
comes, every write and poll succeeds. -/
def calmWorld (content : Option (List UChar)) : World :=
  { mem := some (fun _ => 0, 0), content := content, alloc := true, setupURL := true,
    connect := true, connectStream := true, outer_signal := fun _ => false, env := calm }

/-- Example source: one tag with an empty payload whose footer 12 does not match 11. -/
def badFooterTag : List UChar := [9, 0, 0, 0, 0, 0, 0, 0, 0, 0, 0, 0, 0, 0, 12]

/-- The object `flv_open` returns in `calmWorld (some (flvHeader ++ rest))`. -/
def openedOn (rest : List UChar) : flv :=
  { file := { data := flvHeader ++ rest, pos := 13, eof := false },
    tag := store (store (fun _ => 0) 0 (((flvHeader ++ rest).drop 0).take 9)) 0
      (((flvHeader ++ rest).drop 9).take 4),
    tagSize := 0 }

/-- Example world: as `calmWorld`, but a signal has come before every test of a loop
condition. -/
def cancelledWorld (content : Option (List UChar)) : World :=
  { mem := some (fun _ => 0, 0), content := content, alloc := true, setupURL := true,
    connect := true, connectStream := true, outer_signal := fun _ => true,
    env := fun _ => { signal := true, write_ret := 15, select_ret := 0, readable := false,
                      packet := false } }

/-- Example world: as `calmWorld`, but a signal comes after the outer loop of main.c has been
entered and before the first test of the loop that reads tags. -/
def lateCancelWorld (content : Option (List UChar)) : World :=
  { mem := some (fun _ => 0, 0), content := content, alloc := true, setupURL := true,
    connect := true, connectStream := true, outer_signal := fun _ => false,
    env := fun _ => { signal := true, write_ret := 15, select_ret := 0, readable := false,
                      packet := false } }

/-- The variables the option loop leaves for the arguments `-f <file> <url>`. -/
def fileOptions : Options :=
  { playMode := PlayMode.file, playParam := some 2, loops := 0, verbose := false,
    shuffle := false }

/-- An answer of `getopt` that names a play mode: `-f`, `-p` or `-e`. -/
def Opt.isMode : Opt → Bool
  | Opt.f _ => true
  | Opt.p _ => true
  | Opt.e _ => true
  | _ => false

/-- The answer is `-l`. -/
def Opt.isL : Opt → Bool
  | Opt.l _ => true
  | _ => false

/-- The answer is `-e`. -/
def Opt.isE : Opt → Bool
  | Opt.e _ => true
  | _ => false

/-- The answer is `-p`. -/
def Opt.isP : Opt → Bool
  | Opt.p _ => true
  | _ => false

/-- The answer is `-s`. -/
def Opt.isS : Opt → Bool
  | Opt.s => true
  | _ => false

/-- The answer is `'?'`. -/
def Opt.isUnknown : Opt → Bool
  | Opt.unknown => true
  | _ => false

/-- The condition of the specification on an argument list, whatever the order of the options:
exactly one of `-f`, `-p`, `-e`; no `-l` together with `-e`; `-s` only together with `-p`;
exactly one positional argument. -/
def cli_as_specified (opts : List Opt) (positional : Nat) : Bool :=
  (opts.countP Opt.isMode == 1) && !(opts.any Opt.isL && opts.any Opt.isE)
    && (!opts.any Opt.isS || opts.any Opt.isP) && (positional == 1)

/-- No `-s` comes before the first `-p`. -/
def s_follows_p : List Opt → Bool
  | [] => true
  | Opt.p _ :: _ => true
  | Opt.s :: _ => false
  | _ :: tl => s_follows_p tl

/-- The condition on an argument list with the order of `-s` and `-p` taken into account: only
known options; exactly one of `-f`, `-p`, `-e`; no `-l` together with `-e`; no `-s` before
the `-p`; exactly one positional argument. -/
def cli_in_order (opts : List Opt) (positional : Nat) : Bool :=
  !opts.any Opt.isUnknown && (opts.countP Opt.isMode == 1)
    && !(opts.any Opt.isL && opts.any Opt.isE) && s_follows_p opts && (positional == 1)

/-! ## Machine integers and the big-endian helpers -/

theorem shl_int_byte (a : UChar) (k : Nat) (hk : k ≤ 24) : shl_int a.val k = 2 ^ k * a.val := by
  unfold shl_int INT_BITS
  rw [Nat.shiftLeft_eq, Nat.mul_comm]
  apply Nat.mod_eq_of_lt
  have ha : a.val < 256 := a.isLt
  calc 2 ^ k * a.val ≤ 2 ^ 24 * a.val := Nat.mul_le_mul_right _ (Nat.pow_le_pow_right (by norm_num) hk)
    _ < 2 ^ 32 := by omega

theorem lor_be24 (a b c : UChar) :
    (2 ^ 16 * a.val ||| 2 ^ 8 * b.val ||| c.val) = be24 a b c := by
  have hb : b.val < 256 := b.isLt
  have hc : c.val < 256 := c.isLt
  have h1 : 2 ^ 16 * a.val ||| 2 ^ 8 * b.val = 2 ^ 8 * (2 ^ 8 * a.val + b.val) := by
    rw [← Nat.mul_add_lt_is_or (by omega)]; omega
  rw [h1, ← Nat.mul_add_lt_is_or (by omega)]
  unfold be24; omega

theorem lor_be32 (a b c d : UChar) :
    (2 ^ 24 * a.val ||| 2 ^ 16 * b.val ||| 2 ^ 8 * c.val ||| d.val) = be32 a b c d := by
  have hb : b.val < 256 := b.isLt
  have hc : c.val < 256 := c.isLt
  have hd : d.val < 256 := d.isLt
  have h1 : 2 ^ 24 * a.val ||| 2 ^ 16 * b.val = 2 ^ 16 * (2 ^ 8 * a.val + b.val) := by
    rw [← Nat.mul_add_lt_is_or (by omega)]; omega
  have h2 : 2 ^ 16 * (2 ^ 8 * a.val + b.val) ||| 2 ^ 8 * c.val
      = 2 ^ 8 * (2 ^ 16 * a.val + 2 ^ 8 * b.val + c.val) := by
    rw [← Nat.mul_add_lt_is_or (by omega)]; omega
  rw [h1, h2, ← Nat.mul_add_lt_is_or (by omega)]
  unfold be32; omega

theorem be24_lt (a b c : UChar) : be24 a b c < 2 ^ 24 := by
  have ha : a.val < 256 := a.isLt
  have hb : b.val < 256 := b.isLt
  have hc : c.val < 256 := c.isLt
  unfold be24; omega

theorem be32_lt (a b c d : UChar) : be32 a b c d < 2 ^ 32 := by
  have ha : a.val < 256 := a.isLt
  have hb : b.val < 256 := b.isLt
  have hc : c.val < 256 := c.isLt
  have hd : d.val < 256 := d.isLt
  unfold be32; omega

theorem u24be_eq (tag : Nat → UChar) (off : Nat) :
    u24be tag off = be24 (tag off) (tag (off + 1)) (tag (off + 2)) := by
  unfold u24be
  rw [shl_int_byte _ 16 (by norm_num), shl_int_byte _ 8 (by norm_num), lor_be24]
  have := be24_lt (tag off) (tag (off + 1)) (tag (off + 2))
  unfold int_to_ulong INT_BITS
  rw [if_pos (by omega)]

theorem u32be_eq (tag : Nat → UChar) (off : Nat) :
    u32be tag off =
      if (tag off).val < 128 then be32 (tag off) (tag (off + 1)) (tag (off + 2)) (tag (off + 3))
      else be32 (tag off) (tag (off + 1)) (tag (off + 2)) (tag (off + 3)) + (2 ^ 64 - 2 ^ 32) := by
  unfold u32be
  rw [shl_int_byte _ 24 (by norm_num), shl_int_byte _ 16 (by norm_num),
    shl_int_byte _ 8 (by norm_num), lor_be32]
  have hb : (tag (off + 1)).val < 256 := (tag (off + 1)).isLt
  have hc : (tag (off + 2)).val < 256 := (tag (off + 2)).isLt
  have hd : (tag (off + 3)).val < 256 := (tag (off + 3)).isLt
  unfold int_to_ulong INT_BITS ULONG_BITS be32
  by_cases h : (tag off).val < 128
  · rw [if_pos h, if_pos (by omega)]
  · rw [if_neg h, if_neg (by omega)]

theorem flv_get_timestamp_eq (f : flv) :
    flv_get_timestamp f =
      if (f.tag 7).val < 128 then be32 (f.tag 7) (f.tag 4) (f.tag 5) (f.tag 6)
      else be32 (f.tag 7) (f.tag 4) (f.tag 5) (f.tag 6) + (2 ^ 64 - 2 ^ 32) := by
  unfold flv_get_timestamp
  rw [u24be_eq, shl_int_byte _ 24 (by norm_num)]
  have hlt := be24_lt (f.tag 4) (f.tag 5) (f.tag 6)
  have h7 : (f.tag 7).val < 256 := (f.tag 7).isLt
  unfold int_to_ulong INT_BITS ULONG_BITS
  by_cases h : (f.tag 7).val < 128
  · rw [if_pos h, if_pos (by omega), Nat.lor_comm, ← Nat.mul_add_lt_is_or hlt]
    unfold be32 be24; omega
  · rw [if_neg h, if_neg (by omega), Nat.lor_comm]
    have e : 2 ^ 24 * (f.tag 7).val + (2 ^ 64 - 2 ^ 32)
        = 2 ^ 24 * ((f.tag 7).val + (2 ^ 40 - 2 ^ 8)) := by omega
    rw [e, ← Nat.mul_add_lt_is_or hlt]
    unfold be32 be24 at *; omega

/-! ## Setter and getter of the timestamp -/

theorem to_uchar_val (x : Nat) : (to_uchar x).val = x % 256 := rfl

theorem set_timestamp_tag (f : flv) (v : Nat) :
    (flv_set_timestamp f v).tag 4 = to_uchar ((v >>> 16) &&& 0xFF) ∧
    (flv_set_timestamp f v).tag 5 = to_uchar ((v >>> 8) &&& 0xFF) ∧
    (flv_set_timestamp f v).tag 6 = to_uchar (v &&& 0xFF) ∧
    (flv_set_timestamp f v).tag 7 = to_uchar ((v >>> 24) &&& 0xFF) := by
  simp [flv_set_timestamp, Function.update]

theorem and_ff (x : Nat) : x &&& 0xFF = x % 256 := Nat.and_pow_two_sub_one_eq_mod x 8

/-- What the getter returns after the setter: the low 32 bits of the value, sign-extended from
bit 31 to the width of `unsigned long`. -/
theorem get_set_timestamp (f : flv) (v : Nat) :
    flv_get_timestamp (flv_set_timestamp f v) = int_to_ulong (v % 2 ^ 32) := by
  obtain ⟨h4, h5, h6, h7⟩ := set_timestamp_tag f v
  rw [flv_get_timestamp_eq, h4, h5, h6, h7]
  unfold be32 int_to_ulong INT_BITS ULONG_BITS
  simp only [to_uchar_val, and_ff, Nat.shiftRight_eq_div_pow]
  split <;> split <;> omega

/-- Below `2 ^ 31` the setter followed by the getter gives the value back. -/
theorem get_set_timestamp_small (f : flv) (v : Nat) (h : v < 2 ^ 31) :
    flv_get_timestamp (flv_set_timestamp f v) = v := by
  rw [get_set_timestamp]
  unfold int_to_ulong INT_BITS
  rw [Nat.mod_eq_of_lt (by omega), if_pos (by omega)]

/-! ## Reading from the file -/

theorem store_window (buf : Nat → UChar) (off n : Nat) (fp : FILE)
    (h : fp.pos + n ≤ fp.data.length) (i : Nat) :
    store buf off ((fp.data.drop fp.pos).take n) i =
      if off ≤ i ∧ i < off + n then fp.byteAt (fp.pos + (i - off)) else buf i := by
  unfold store FILE.byteAt
  by_cases h1 : off ≤ i
  · by_cases h2 : i < off + n
    · have h3 : i - off < n := by omega
      have h4 : fp.pos + (i - off) < fp.data.length := by omega
      simp [h1, h2, h3, List.getElem?_take, List.getElem?_drop, List.getD_eq_getElem?_getD,
        List.getElem?_eq_getElem h4]
    · have h3 : ¬ i - off < n := by omega
      simp [h1, h2, h3, List.getElem?_take]
  · simp [h1]

theorem fread_full (buf : Nat → UChar) (off size : Nat) (fp : FILE)
    (hb : off + size ≤ FLV_MAX_TAG_SIZE) (hs : size ≠ 0)
    (h : fp.pos + size ≤ fp.data.length) :
    fread buf off size fp =
      some (1, store buf off ((fp.data.drop fp.pos).take size),
        { fp with pos := fp.pos + size }) := by
  unfold fread
  have hl : ((fp.data.drop fp.pos).take size).length = size := by
    simp [List.length_take, List.length_drop]; omega
  simp [Nat.not_lt.mpr hb, hs, hl]

theorem fread_short (buf : Nat → UChar) (off size : Nat) (fp : FILE)
    (hb : off + size ≤ FLV_MAX_TAG_SIZE) (hs : size ≠ 0)
    (h : fp.data.length < fp.pos + size) :
    fread buf off size fp =
      some (0, store buf off ((fp.data.drop fp.pos).take size),
        { fp with pos := fp.pos + fp.remaining, eof := true }) := by
  unfold fread FILE.remaining
  have hl : ((fp.data.drop fp.pos).take size).length = fp.data.length - fp.pos := by
    simp [List.length_take, List.length_drop]; omega
  have hne : ¬ fp.data.length - fp.pos = size := by omega
  simp [Nat.not_lt.mpr hb, hs, hl, hne]

theorem payloadLength_lt (fp : FILE) : fp.payloadLength < 2 ^ 24 := be24_lt _ _ _

theorem ulong_to_long_small (x : Nat) (h : x < 2 ^ 63) : ulong_to_long x = (x : Int) := by
  unfold ulong_to_long ULONG_BITS
  rw [if_pos (by omega)]

/-- The buffer after the 11-byte header has been read. -/
theorem header_read (f : flv) (h : f.file.pos + 11 ≤ f.file.data.length) :
    fread f.tag 0 FLV_TAG_HEADER_SIZE f.file =
      some (1, store f.tag 0 ((f.file.data.drop f.file.pos).take 11),
        { f.file with pos := f.file.pos + 11 }) ∧
    (∀ i, store f.tag 0 ((f.file.data.drop f.file.pos).take 11) i =
      if i < 11 then f.file.byteAt (f.file.pos + i) else f.tag i) ∧
    u24be (store f.tag 0 ((f.file.data.drop f.file.pos).take 11)) 1 = f.file.payloadLength := by
  have hw : ∀ i, store f.tag 0 ((f.file.data.drop f.file.pos).take 11) i =
      if i < 11 then f.file.byteAt (f.file.pos + i) else f.tag i := by
    intro i
    rw [store_window f.tag 0 11 f.file h i]
    simp
  refine ⟨?_, hw, ?_⟩
  · exact fread_full f.tag 0 11 f.file (by unfold FLV_MAX_TAG_SIZE FLV_TAG_HEADER_SIZE; omega)
      (by omega) h
  · rw [u24be_eq, hw 1, hw 2, hw 3]
    simp [FILE.payloadLength]

/-- Header read that runs out of bytes: `flv_next` answers 0. -/
theorem flv_next_short_header (f : flv) (h : f.file.data.length < f.file.pos + 11) :
    flv_next f = some (0, { f with
      tag := store f.tag 0 ((f.file.data.drop f.file.pos).take 11),
      file := { f.file with pos := f.file.pos + f.file.remaining, eof := true } }) := by
  unfold flv_next
  rw [show FLV_TAG_HEADER_SIZE = 11 from rfl,
    fread_short f.tag 0 11 f.file (by unfold FLV_MAX_TAG_SIZE FLV_TAG_HEADER_SIZE; omega)
      (by omega) (by omega)]
  simp [feof]

/-- Whole header, but payload and footer are not all there: `flv_next` answers -1, the stream
being at end-of-file. -/
theorem flv_next_short_payload (f : flv) (h : f.file.pos + 11 ≤ f.file.data.length)
    (h2 : f.file.data.length < f.file.pos + 11 + f.file.payloadLength + 4) :
    ∃ f1, flv_next f = some (-1, f1) ∧ f1.file.eof = true ∧ f1.file.data = f.file.data := by
  obtain ⟨e1, _, e3⟩ := header_read f h
  have hL := payloadLength_lt f.file
  unfold flv_next
  rw [e1]
  simp only [ne_eq, not_true_eq_false, if_false, e3]
  rw [fread_short _ FLV_TAG_HEADER_SIZE (f.file.payloadLength + FLV_TAG_FOOTER_SIZE) _
    (by unfold FLV_MAX_TAG_SIZE FLV_TAG_HEADER_SIZE FLV_TAG_PAYLOAD_MAX_SIZE FLV_TAG_FOOTER_SIZE
        omega)
    (by unfold FLV_TAG_FOOTER_SIZE; omega)
    (by unfold FLV_TAG_FOOTER_SIZE; simp only; omega)]
  simp

theorem tagImage_apply (f : flv)
    (h : f.file.pos + 11 + f.file.payloadLength + 4 ≤ f.file.data.length) (i : Nat) :
    tagImage f i =
      if i < 11 + f.file.payloadLength + 4 then f.file.byteAt (f.file.pos + i) else f.tag i := by
  obtain ⟨_, e2, _⟩ := header_read f (by omega)
  unfold tagImage
  have hw := store_window (store f.tag 0 ((f.file.data.drop f.file.pos).take 11)) 11
    (f.file.payloadLength + 4) { f.file with pos := f.file.pos + 11 } (by simp only; omega) i
  simp only [FILE.byteAt] at hw e2 ⊢
  rw [hw, e2]
  by_cases h1 : i < 11
  · simp [h1, Nat.not_le.mpr h1, show i < 11 + f.file.payloadLength + 4 by omega]
  · by_cases h2 : i < 11 + f.file.payloadLength + 4
    · simp [h1, h2, Nat.le_of_not_lt h1, show i < 11 + (f.file.payloadLength + 4) by omega,
        show f.file.pos + 11 + (i - 11) = f.file.pos + i by omega]
    · simp [h1, h2, show ¬ i < 11 + (f.file.payloadLength + 4) by omega]

/-- Whole tag present: the answer depends on the footer only. -/
theorem flv_next_whole (f : flv)
    (h : f.file.pos + 11 + f.file.payloadLength + 4 ≤ f.file.data.length) :
    flv_next f =
      if f.file.footer = 11 + f.file.payloadLength then
        some (((11 + f.file.payloadLength + 4 : Nat) : Int),
          { file := { f.file with pos := f.file.pos + 11 + (f.file.payloadLength + 4) },
            tag := tagImage f, tagSize := 11 + f.file.payloadLength + 4 })
      else
        some (-1, { f with
          file := { f.file with pos := f.file.pos + 11 + (f.file.payloadLength + 4) },
          tag := tagImage f }) := by
  obtain ⟨e1, _, e3⟩ := header_read f (by omega)
  have hL := payloadLength_lt f.file
  have hT := tagImage_apply f h
  unfold flv_next
  rw [e1]
  simp only [ne_eq, not_true_eq_false, if_false, e3]
  rw [fread_full _ FLV_TAG_HEADER_SIZE (f.file.payloadLength + FLV_TAG_FOOTER_SIZE) _
    (by unfold FLV_MAX_TAG_SIZE FLV_TAG_HEADER_SIZE FLV_TAG_PAYLOAD_MAX_SIZE FLV_TAG_FOOTER_SIZE
        omega)
    (by unfold FLV_TAG_FOOTER_SIZE; omega)
    (by unfold FLV_TAG_FOOTER_SIZE; simp only; omega)]
  simp only [ne_eq, not_true_eq_false, if_false]
  have hat : u32be_at (tagImage f) (11 + f.file.payloadLength)
      = some (u32be (tagImage f) (11 + f.file.payloadLength)) := by
    unfold u32be_at
    rw [if_neg (by unfold FLV_MAX_TAG_SIZE FLV_TAG_HEADER_SIZE FLV_TAG_PAYLOAD_MAX_SIZE
                     FLV_TAG_FOOTER_SIZE; omega)]
  have hu : u32be (tagImage f) (11 + f.file.payloadLength) = 11 + f.file.payloadLength ↔
      f.file.footer = 11 + f.file.payloadLength := by
    rw [u32be_eq, hT, hT, hT, hT]
    simp only [show 11 + f.file.payloadLength < 11 + f.file.payloadLength + 4 by omega,
      show 11 + f.file.payloadLength + 1 < 11 + f.file.payloadLength + 4 by omega,
      show 11 + f.file.payloadLength + 2 < 11 + f.file.payloadLength + 4 by omega,
      show 11 + f.file.payloadLength + 3 < 11 + f.file.payloadLength + 4 by omega, if_true]
    simp only [← Nat.add_assoc]
    have hb := (f.file.byteAt (f.file.pos + 11 + f.file.payloadLength + 1)).isLt
    have hc := (f.file.byteAt (f.file.pos + 11 + f.file.payloadLength + 2)).isLt
    have hd := (f.file.byteAt (f.file.pos + 11 + f.file.payloadLength + 3)).isLt
    unfold FILE.footer
    generalize f.file.byteAt (f.file.pos + 11 + f.file.payloadLength) = b0 at *
    generalize f.file.byteAt (f.file.pos + 11 + f.file.payloadLength + 1) = b1 at *
    generalize f.file.byteAt (f.file.pos + 11 + f.file.payloadLength + 2) = b2 at *
    generalize f.file.byteAt (f.file.pos + 11 + f.file.payloadLength + 3) = b3 at *
    have h0 := b0.isLt
    unfold be32
    split <;> constructor <;> intro hh <;> omega
  show (match u32be_at (tagImage f) (FLV_TAG_HEADER_SIZE + f.file.payloadLength) with
    | none => none
    | some storedPayloadSize => _) = _
  rw [show FLV_TAG_HEADER_SIZE = 11 from rfl, show FLV_TAG_FOOTER_SIZE = 4 from rfl, hat]
  simp only []
  by_cases hf : f.file.footer = 11 + f.file.payloadLength
  · rw [if_pos hf, if_neg (by rw [not_not]; exact hu.mpr hf),
      ulong_to_long_small _ (by omega)]
    rfl
  · rw [if_neg hf, if_pos (fun hh => hf (hu.mp hh))]
    rfl

/-- On every object `flv_next` returns: no access leaves the buffer. -/
theorem flv_next_total (f : flv) : ∃ r f1, flv_next f = some (r, f1) := by
  by_cases c1 : f.file.data.length < f.file.pos + 11
  · exact ⟨_, _, flv_next_short_header f c1⟩
  · by_cases c2 : f.file.data.length < f.file.pos + 11 + f.file.payloadLength + 4
    · obtain ⟨f2, e, _⟩ := flv_next_short_payload f (by omega) c2
      exact ⟨_, _, e⟩
    · rw [flv_next_whole f (by omega)]
      split
      · exact ⟨_, _, rfl⟩
      · exact ⟨_, _, rfl⟩

/-- A positive result of `flv_next` comes from the whole-tag case with a matching footer. -/
theorem flv_next_positive (f f1 : flv) (r : Int) (h : flv_next f = some (r, f1)) (hr : 0 < r) :
    f.file.pos + 11 + f.file.payloadLength + 4 ≤ f.file.data.length ∧
    r = ((11 + f.file.payloadLength + 4 : Nat) : Int) ∧
    f1 = { file := { f.file with pos := f.file.pos + 11 + (f.file.payloadLength + 4) },
           tag := tagImage f, tagSize := 11 + f.file.payloadLength + 4 } := by
  by_cases c1 : f.file.data.length < f.file.pos + 11
  · rw [flv_next_short_header f c1] at h
    simp only [Option.some.injEq, Prod.mk.injEq] at h
    omega
  · by_cases c2 : f.file.data.length < f.file.pos + 11 + f.file.payloadLength + 4
    · obtain ⟨f2, e, _⟩ := flv_next_short_payload f (by omega) c2
      rw [e] at h
      simp only [Option.some.injEq, Prod.mk.injEq] at h
      omega
    · have hw : f.file.pos + 11 + f.file.payloadLength + 4 ≤ f.file.data.length := by omega
      rw [flv_next_whole f hw] at h
      by_cases hf : f.file.footer = 11 + f.file.payloadLength
      · rw [if_pos hf] at h
        simp only [Option.some.injEq, Prod.mk.injEq] at h
        exact ⟨hw, h.1.symm, h.2.symm⟩
      · rw [if_neg hf] at h
        simp only [Option.some.injEq, Prod.mk.injEq] at h
        omega

/-- A positive result of `flv_next` uses up at least 15 bytes of the file. -/
theorem flv_next_consumes (f f1 : flv) (r : Int) (h : flv_next f = some (r, f1)) (hr : 0 < r) :
    f1.file.remaining + 15 ≤ f.file.remaining := by
  obtain ⟨hw, _, e⟩ := flv_next_positive f f1 r h hr
  subst e
  unfold FILE.remaining
  simp only
  omega

/-! ## The streaming loop -/

/-- Every pass through the loop body returns; a pass that goes on to another test of the
condition with `running` still set has used up at least 15 bytes of the file. -/
theorem loop_body_progress (e : Iter) (s : LoopState) :
    ∃ evs s1 j, loop_body e s = some (evs, s1, j) ∧
      (j = false → s1.running = true →
        s1.flv.file.remaining + 15 ≤ s.flv.file.remaining) := by
  obtain ⟨r, f1, hn⟩ := flv_next_total s.flv
  unfold loop_body
  rw [hn]
  simp only
  by_cases h0 : r = 0
  · rw [if_pos h0]
    exact ⟨_, _, _, rfl, fun _ hr => by simp at hr⟩
  · rw [if_neg h0]
    by_cases h1 : r < 0
    · rw [if_pos h1]
      exact ⟨_, _, _, rfl, fun hj => by simp at hj⟩
    · rw [if_neg h1]
      have hc := flv_next_consumes s.flv f1 r hn (by omega)
      by_cases h2 : e.write_ret ≤ 0
      · rw [if_pos h2]
        exact ⟨_, _, _, rfl, fun hj => by simp at hj⟩
      · rw [if_neg h2]
        by_cases h3 : e.select_ret = -1
        · rw [if_pos h3]
          exact ⟨_, _, _, rfl, fun hj => by simp at hj⟩
        · rw [if_neg h3]
          by_cases h4 : s.prevTimestamp < flv_get_timestamp f1
          · rw [if_pos h4]
            exact ⟨_, _, _, rfl, fun _ _ => hc⟩
          · rw [if_neg h4]
            exact ⟨_, _, _, rfl, fun _ _ => hc⟩

/-- The loop ends: with at least one test allowed, and two more than the bytes left in the file
when `running` is set, `stream_loop` returns. -/
theorem stream_loop_total (fuel : Nat) : ∀ (env : Nat → Iter) (i : Nat) (s : LoopState),
    1 ≤ fuel → (s.running = true → s.flv.file.remaining + 2 ≤ fuel) →
    ∃ r, stream_loop fuel env i s = some r := by
  induction fuel with
  | zero => intro env i s h; omega
  | succ fuel ih =>
    intro env i s _ hrun
    rw [stream_loop]
    by_cases hc : s.running = false ∨ (env i).signal = true
    · rw [if_pos hc]; exact ⟨_, rfl⟩
    · rw [if_neg hc]
      have hr : s.running = true := by
        cases hs : s.running
        · exact absurd (Or.inl hs) hc
        · rfl
      have hfuel := hrun hr
      obtain ⟨evs, s1, j, hb, hp⟩ := loop_body_progress (env i) s
      rw [hb]
      cases j with
      | true => exact ⟨_, rfl⟩
      | false =>
        simp only
        obtain ⟨r2, h2⟩ := ih env (i + 1) s1 (by omega)
          (fun h1 => by have := hp rfl h1; omega)
        rw [h2]
        exact ⟨_, rfl⟩

/-- In the calls of one pass either an `RTMP_Write` comes before every `usleep`, or there is
neither. -/
theorem loop_body_usleep_before_write (e : Iter) (s s1 : LoopState) (evs : List Event)
    (j : Bool) (h : loop_body e s = some (evs, s1, j)) (rest : List Event) :
    usleep_before_write (evs ++ rest) = 0 ∨
      usleep_before_write (evs ++ rest) = usleep_before_write rest := by
  unfold loop_body at h
  split at h
  · exact absurd h (by simp)
  · rename_i tagSize f1 _
    simp only at h
    split at h
    · simp only [Option.some.injEq, Prod.mk.injEq] at h
      obtain ⟨h, _⟩ := h
      subst h
      right; rfl
    · split at h
      · simp only [Option.some.injEq, Prod.mk.injEq] at h
        obtain ⟨h, _⟩ := h
        subst h
        right; rfl
      · split at h
        · simp only [Option.some.injEq, Prod.mk.injEq] at h
          obtain ⟨h, _⟩ := h
          subst h
          left; rfl
        · split at h
          · simp only [Option.some.injEq, Prod.mk.injEq] at h
            obtain ⟨h, _⟩ := h
            subst h
            left; rfl
          · split at h
            · simp only [Option.some.injEq, Prod.mk.injEq] at h
              obtain ⟨h, _⟩ := h
              subst h
              left; rfl
            · simp only [Option.some.injEq, Prod.mk.injEq] at h
              obtain ⟨h, _⟩ := h
              subst h
              left; rfl

/-- No run of the loop asks for a pause before its first `RTMP_Write`. -/
theorem stream_loop_usleep_before_write (fuel : Nat) :
    ∀ (env : Nat → Iter) (i : Nat) (s : LoopState) (r : List Event × LoopState × Bool),
    stream_loop fuel env i s = some r → usleep_before_write r.1 = 0 := by
  induction fuel with
  | zero => intro env i s r h; simp [stream_loop] at h
  | succ fuel ih =>
    intro env i s r h
    rw [stream_loop] at h
    split at h
    · simp only [Option.some.injEq] at h
      subst h; rfl
    · split at h
      · exact absurd h (by simp)
      · rename_i evs s1 hb
        simp only [Option.some.injEq] at h
        subst h
        have h0 := loop_body_usleep_before_write _ _ _ _ _ hb []
        rw [List.append_nil] at h0
        rcases h0 with h0 | h0
        · exact h0
        · rw [h0]; rfl
      · rename_i evs s1 hb
        split at h
        · exact absurd h (by simp)
        · rename_i evs2 s2 jumped h2
          simp only [Option.some.injEq] at h
          subst h
          have hrest := ih env (i + 1) s1 _ h2
          simp only at hrest ⊢
          rcases loop_body_usleep_before_write _ _ _ _ _ hb evs2 with h0 | h0
          · exact h0
          · rw [h0]; exact hrest

/-- A pass in which `flv_next`, `RTMP_Write` and `select` all succeed: it does not jump, it hands
the tag to `RTMP_Write` once, and the only pause it asks for comes after that write. -/
theorem loop_body_sent (e : Iter) (s : LoopState) (n : Int) (f1 : flv)
    (h : flv_next s.flv = some (n, f1)) (hn : 0 < n)
    (hw : 0 < e.write_ret) (hs : e.select_ret ≠ -1) :
    ∃ evs, loop_body e s = some (evs,
        { s with flv := f1,
                 prevTimestamp := if s.prevTimestamp < flv_get_timestamp f1
                   then flv_get_timestamp f1 else s.prevTimestamp }, false) ∧
      (∀ rest, writes (evs ++ rest)
        = (List.range n.toNat).map (flv_get_tag f1) :: writes rest) ∧
      (∀ rest, pause_after_write 1 (evs ++ rest)
        = (if s.prevTimestamp < flv_get_timestamp f1
            then 1000 * (flv_get_timestamp f1 - s.prevTimestamp) % 2 ^ ULONG_BITS
              % 2 ^ USECONDS_BITS else 0)
          + usleep_before_write rest) ∧
      (∀ k rest, pause_after_write (k + 2) (evs ++ rest) = pause_after_write (k + 1) rest) := by
  unfold loop_body
  rw [h]
  simp only
  rw [if_neg (by omega), if_neg (by omega), if_neg (by omega), if_neg hs]
  by_cases ht : s.prevTimestamp < flv_get_timestamp f1
  · rw [if_pos ht, if_pos ht]
    refine ⟨_, rfl, ?_, ?_, ?_⟩
    · intro rest
      cases e.readable <;> cases e.packet <;> simp [writes]
    · intro rest
      rw [if_pos ht]
      cases e.readable <;> cases e.packet <;>
        simp [pause_after_write, after_write, usleep_before_write]
    · intro k rest
      cases e.readable <;> cases e.packet <;>
        simp [pause_after_write, after_write, usleep_before_write]
  · rw [if_neg ht, if_neg ht]
    refine ⟨_, rfl, ?_, ?_, ?_⟩
    · intro rest
      cases e.readable <;> cases e.packet <;> simp [writes]
    · intro rest
      rw [if_neg ht]
      cases e.readable <;> cases e.packet <;>
        simp [pause_after_write, after_write, usleep_before_write]
    · intro k rest
      cases e.readable <;> cases e.packet <;>
        simp [pause_after_write, after_write, usleep_before_write]

/-- One more test of the loop condition, when it holds and the pass does not jump. -/
theorem stream_loop_pass (fuel : Nat) (env : Nat → Iter) (i : Nat) (s s1 : LoopState)
    (evs : List Event) (hr : s.running = true) (hsig : (env i).signal = false)
    (hb : loop_body (env i) s = some (evs, s1, false))
    (r : List Event × LoopState × Bool) (hrest : stream_loop fuel env (i + 1) s1 = some r) :
    stream_loop (fuel + 1) env i s = some (evs ++ r.1, r.2.1, r.2.2) := by
  rw [stream_loop, if_neg (by simp [hr, hsig]), hb]
  simp only
  rw [hrest]

/-! ## What the loop hands to `RTMP_Write` -/

theorem writes_append (a b : List Event) : writes (a ++ b) = writes a ++ writes b := by
  induction a with
  | nil => simp [writes]
  | cons e tl ih => cases e <;> simp [writes, ih]

/-- The bytes handed to `RTMP_Write` after a successful `flv_next` are the bytes of the file from
the old position on, 11 + payload length + 4 of them. -/
theorem written_tag (f f1 : flv) (r : Int) (h : flv_next f = some (r, f1)) (hr : 0 < r) :
    (List.range r.toNat).map (flv_get_tag f1)
      = (f.file.data.drop f.file.pos).take (11 + f.file.payloadLength + 4) ∧
    f.file.pos + (11 + f.file.payloadLength + 4) ≤ f.file.data.length ∧
    f1.file.data = f.file.data ∧
    f1.file.pos = f.file.pos + (11 + f.file.payloadLength + 4) := by
  obtain ⟨hw, hr1, e⟩ := flv_next_positive f f1 r h hr
  subst e
  subst hr1
  refine ⟨?_, by omega, rfl, by simp only; omega⟩
  apply List.ext_getElem?
  intro i
  simp only [flv_get_tag, Int.toNat_ofNat, List.getElem?_map, List.getElem?_take,
    List.getElem?_drop]
  by_cases hi : i < 11 + f.file.payloadLength + 4
  · rw [List.getElem?_range hi, if_pos hi]
    simp only [Option.map_some']
    rw [tagImage_apply f hw i, if_pos hi]
    simp only [FILE.byteAt, List.getD_eq_getElem?_getD]
    rw [List.getElem?_eq_getElem (by omega)]
    rfl
  · rw [if_neg hi, List.getElem?_eq_none (by simp; omega)]
    rfl

/-- Once `running` is 0 the loop makes no call. -/
theorem stream_loop_not_running (fuel : Nat) (env : Nat → Iter) (i : Nat) (s : LoopState)
    (r : List Event × LoopState × Bool) (hrun : s.running = false)
    (h : stream_loop fuel env i s = some r) : r.1 = [] ∧ r.2.2 = false ∧ r.2.1.ret = s.ret := by
  cases fuel with
  | zero => simp [stream_loop] at h
  | succ fuel =>
    rw [stream_loop, if_pos (Or.inl hrun)] at h
    simp only [Option.some.injEq] at h
    subst h
    exact ⟨rfl, rfl, rfl⟩

/-- What one pass hands to `RTMP_Write`: nothing when `flv_next` does not succeed (and then a
pass that does not jump has cleared `running`), the tag just read, once, when it does. -/
theorem loop_body_writes (e : Iter) (s s1 : LoopState) (evs : List Event) (j : Bool)
    (h : loop_body e s = some (evs, s1, j)) :
    ∃ r f1, flv_next s.flv = some (r, f1) ∧ s1.flv = f1 ∧
      ((r ≤ 0 ∧ writes evs = [] ∧ (j = false → s1.running = false)) ∨
       (0 < r ∧ writes evs = [(List.range r.toNat).map (flv_get_tag f1)])) := by
  unfold loop_body at h
  split at h
  · exact absurd h (by simp)
  · rename_i tagSize f1 hnext
    refine ⟨tagSize, f1, hnext, ?_⟩
    simp only at h
    split at h
    · simp only [Option.some.injEq, Prod.mk.injEq] at h
      obtain ⟨h1, h2, _⟩ := h
      subst h1 h2
      exact ⟨rfl, Or.inl ⟨by omega, rfl, fun _ => rfl⟩⟩
    · split at h
      · simp only [Option.some.injEq, Prod.mk.injEq] at h
        obtain ⟨h1, h2, h3⟩ := h
        subst h1 h2 h3
        exact ⟨rfl, Or.inl ⟨by omega, rfl, fun hj => by simp at hj⟩⟩
      · split at h
        · simp only [Option.some.injEq, Prod.mk.injEq] at h
          obtain ⟨h1, h2, _⟩ := h
          subst h1 h2
          exact ⟨rfl, Or.inr ⟨by omega, rfl⟩⟩
        · split at h
          · simp only [Option.some.injEq, Prod.mk.injEq] at h
            obtain ⟨h1, h2, _⟩ := h
            subst h1 h2
            exact ⟨rfl, Or.inr ⟨by omega, rfl⟩⟩
          · split at h
            · simp only [Option.some.injEq, Prod.mk.injEq] at h
              obtain ⟨h1, h2, _⟩ := h
              subst h1 h2
              refine ⟨rfl, Or.inr ⟨by omega, ?_⟩⟩
              cases e.readable <;> cases e.packet <;> simp [writes]
            · simp only [Option.some.injEq, Prod.mk.injEq] at h
              obtain ⟨h1, h2, _⟩ := h
              subst h1 h2
              refine ⟨rfl, Or.inr ⟨by omega, ?_⟩⟩
              cases e.readable <;> cases e.packet <;> simp [writes]

/-- The bytes handed to `RTMP_Write` after a successful `flv_next` are a whole tag. -/
theorem written_tag_whole (f f1 : flv) (r : Int) (h : flv_next f = some (r, f1))
    (hr : 0 < r) : whole_tag ((List.range r.toNat).map (flv_get_tag f1)) := by
  obtain ⟨hw, hr1, e⟩ := flv_next_positive f f1 r h hr
  subst e
  subst hr1
  have hb : ∀ k, k < 11 + f.file.payloadLength + 4 →
      ((List.range (11 + f.file.payloadLength + 4)).map (tagImage f)).getD k 0
        = f.file.byteAt (f.file.pos + k) := by
    intro k hk
    rw [List.getD_eq_getElem?_getD, List.getElem?_map, List.getElem?_range hk]
    simp only [Option.map_some', Option.getD_some]
    rw [tagImage_apply f hw k, if_pos hk]
  unfold whole_tag
  simp only [flv_get_tag, Int.toNat_ofNat]
  rw [hb 1 (by omega), hb 2 (by omega), hb 3 (by omega)]
  simp [FILE.payloadLength]

/-- What a run of the loop hands to `RTMP_Write`: the first tags that successive calls of
`flv_next` return, in order, each one whole; joined together they are the bytes of the
file from the starting position on. -/
theorem stream_loop_writes (fuel : Nat) :
    ∀ (env : Nat → Iter) (i : Nat) (s : LoopState) (r : List Event × LoopState × Bool),
    stream_loop fuel env i s = some r →
    writes r.1 <+: next_tags fuel s.flv ∧
      (writes r.1).flatten <+: s.flv.file.data.drop s.flv.file.pos ∧
      ∀ b ∈ writes r.1, whole_tag b := by
  induction fuel with
  | zero => intro env i s r h; simp [stream_loop] at h
  | succ fuel ih =>
    intro env i s r h
    rw [stream_loop] at h
    split at h
    · simp only [Option.some.injEq] at h
      subst h
      simp [writes]
    · split at h
      · exact absurd h (by simp)
      · rename_i evs s1 hb
        simp only [Option.some.injEq] at h
        subst h
        obtain ⟨n, f1, hn, _, hcase⟩ := loop_body_writes _ _ _ _ _ hb
        rcases hcase with ⟨_, hw, _⟩ | ⟨hpos, hw⟩
        · simp [hw]
        · obtain ⟨e1, _, _, _⟩ := written_tag s.flv f1 n hn hpos
          simp only [hw, next_tags, hn, if_pos hpos]
          refine ⟨?_, ?_, ?_⟩
          · exact ⟨next_tags fuel f1, rfl⟩
          · rw [e1]
            simp only [List.flatten_cons, List.flatten_nil, List.append_nil]
            exact List.take_prefix _ _
          · intro b hbm
            simp only [List.mem_singleton] at hbm
            subst hbm
            exact written_tag_whole s.flv f1 n hn hpos
      · rename_i evs s1 hb
        split at h
        · exact absurd h (by simp)
        · rename_i evs2 s2 jumped h2
          simp only [Option.some.injEq] at h
          subst h
          obtain ⟨n, f1, hn, hf1, hcase⟩ := loop_body_writes _ _ _ _ _ hb
          obtain ⟨a1, a2, a3⟩ := ih env (i + 1) s1 _ h2
          simp only at a1 a2 a3 ⊢
          rw [writes_append]
          rcases hcase with ⟨_, hw, hrun⟩ | ⟨hpos, hw⟩
          · obtain ⟨hnil, _⟩ := stream_loop_not_running fuel env (i + 1) s1 _ (hrun rfl) h2
            simp only at hnil
            subst hnil
            simp [hw, writes]
          · obtain ⟨e1, hlen, hd, hp⟩ := written_tag s.flv f1 n hn hpos
            subst hf1
            simp only [hw, next_tags, hn, if_pos hpos, List.singleton_append]
            refine ⟨?_, ?_, ?_⟩
            · obtain ⟨t, ht⟩ := a1
              exact ⟨t, by rw [← ht]; rfl⟩
            · rw [e1]
              simp only [List.flatten_cons]
              rw [hd, hp] at a2
              obtain ⟨t, ht⟩ := a2
              refine ⟨t, ?_⟩
              rw [List.append_assoc, ht, ← List.drop_drop, List.take_append_drop]
            · intro b hbm
              simp only [List.mem_cons] at hbm
              rcases hbm with hbm | hbm
              · subst hbm
                exact written_tag_whole s.flv s1.flv n hn hpos
              · exact a3 b hbm

/-! ## How the loop ends -/

/-- One pass jumps to `restoreSig` exactly when one of its calls fails; it then has set `ret` to
`EXIT_FAILURE` and the failed call is its last call; otherwise `ret` is as before. -/
theorem loop_body_status (e : Iter) (s s1 : LoopState) (evs : List Event) (j : Bool)
    (h : loop_body e s = some (evs, s1, j)) :
    (j = true ↔ pass_fails e s = true) ∧
      s1.ret = (if j = true then EXIT_FAILURE else s.ret) ∧
      (j = true → ∃ pre c, evs = pre ++ [c] ∧ c.ends_failed_run = true) := by
  unfold loop_body at h
  unfold pass_fails
  split at h
  · exact absurd h (by simp)
  · rename_i tagSize f1 hnext
    rw [hnext]
    simp only at h ⊢
    split at h
    · rename_i h0
      simp only [Option.some.injEq, Prod.mk.injEq] at h
      obtain ⟨h1, h2, h3⟩ := h
      subst h1 h2 h3 h0
      simp
    · rename_i h0
      split at h
      · rename_i hneg
        simp only [Option.some.injEq, Prod.mk.injEq] at h
        obtain ⟨h1, h2, h3⟩ := h
        subst h1 h2 h3
        refine ⟨by simp [hneg], rfl, fun _ => ⟨[], _, rfl, ?_⟩⟩
        simp [Event.ends_failed_run, hneg]
      · rename_i hneg
        have hpos : 0 < tagSize := by omega
        split at h
        · rename_i hw
          simp only [Option.some.injEq, Prod.mk.injEq] at h
          obtain ⟨h1, h2, h3⟩ := h
          subst h1 h2 h3
          refine ⟨by simp [hpos, hw], rfl, fun _ => ⟨[Event.flv_next tagSize], _, rfl, rfl⟩⟩
        · rename_i hw
          split at h
          · rename_i hsel
            simp only [Option.some.injEq, Prod.mk.injEq] at h
            obtain ⟨h1, h2, h3⟩ := h
            subst h1 h2 h3
            refine ⟨by simp [hpos, hsel]; omega, rfl, fun _ => ⟨[Event.flv_next tagSize,
              Event.RTMP_Write ((List.range tagSize.toNat).map (flv_get_tag f1))], _, rfl, rfl⟩⟩
          · rename_i hsel
            split at h
            · simp only [Option.some.injEq, Prod.mk.injEq] at h
              obtain ⟨h1, h2, h3⟩ := h
              subst h1 h2 h3
              refine ⟨?_, rfl, fun hj => by simp at hj⟩
              simp [hneg, hw, hsel]
            · simp only [Option.some.injEq, Prod.mk.injEq] at h
              obtain ⟨h1, h2, h3⟩ := h
              subst h1 h2 h3
              refine ⟨?_, rfl, fun hj => by simp at hj⟩
              simp [hneg, hw, hsel]

/-- The run of the loop ends in `goto restoreSig` exactly when one of its passes has a failing
call; `ret` is then `EXIT_FAILURE` and the failed call is the last call of the run;
otherwise `ret` is as before and `running` is 0. -/
theorem stream_loop_status (fuel : Nat) :
    ∀ (env : Nat → Iter) (i : Nat) (s : LoopState) (r : List Event × LoopState × Bool),
    stream_loop fuel env i s = some r →
    (r.2.2 = true ↔ ∃ p ∈ passes fuel env i s, pass_fails (env p.1) p.2 = true) ∧
      r.2.1.ret = (if r.2.2 = true then EXIT_FAILURE else s.ret) ∧
      (r.2.2 = true → ∃ pre c, r.1 = pre ++ [c] ∧ c.ends_failed_run = true) ∧
      (r.2.2 = false → r.2.1.running = false) := by
  induction fuel with
  | zero => intro env i s r h; simp [stream_loop] at h
  | succ fuel ih =>
    intro env i s r h
    rw [stream_loop] at h
    rw [passes]
    split at h
    · rename_i hc
      rw [if_pos hc]
      simp only [Option.some.injEq] at h
      subst h
      simp
    · rename_i hc
      rw [if_neg hc]
      split at h
      · exact absurd h (by simp)
      · rename_i evs s1 hb
        simp only [Option.some.injEq] at h
        subst h
        rw [hb]
        obtain ⟨b1, b2, b3⟩ := loop_body_status _ _ _ _ _ hb
        refine ⟨?_, b2, b3, fun hj => by simp at hj⟩
        simp only [List.mem_singleton, exists_eq_left, true_iff]
        exact b1.mp rfl
      · rename_i evs s1 hb
        rw [hb]
        obtain ⟨b1, b2, _⟩ := loop_body_status _ _ _ _ _ hb
        have hnf : ¬ pass_fails (env i) s = true := fun hf => by
          have := b1.mpr hf
          simp at this
        simp only [Bool.false_eq_true, if_false] at b2
        split at h
        · exact absurd h (by simp)
        · rename_i evs2 s2 jumped h2
          simp only [Option.some.injEq] at h
          subst h
          obtain ⟨a1, a2, a3, a4⟩ := ih env (i + 1) s1 _ h2
          simp only at a1 a2 a3 a4 ⊢
          refine ⟨?_, ?_, ?_, a4⟩
          · rw [a1]
            simp only [List.mem_cons, exists_eq_or_imp]
            constructor
            · intro hx; exact Or.inr hx
            · rintro (hx | hx)
              · exact absurd hx hnf
              · exact hx
          · rw [a2, b2]
          · intro hj
            obtain ⟨pre, c, e1, e2⟩ := a3 hj
            exact ⟨evs ++ pre, c, by rw [e1, List.append_assoc], e2⟩

/-- The loop as `main` enters it returns. -/
theorem streaming_total (env : Nat → Iter) (f : flv) : ∃ r, streaming env f = some r := by
  unfold streaming
  exact stream_loop_total _ env 0 _ (by omega) (fun _ => by simp only; omega)

/-! ## The runs of rtmp.c and main.c -/

/-- rtmp.c with an opened source and a connected transport: the setup calls, the run of the
loop, then `signal` restored, `RTMP_Free`, `flv_close`, and `return ret`. -/
theorem rtmp_main_streams (w : World) (f : flv) (tr : List Event) (s : LoopState) (j : Bool)
    (hopen : flv_open w.mem w.content = some f)
    (ha : w.alloc = true) (hc : w.connect = true) (hcs : w.connectStream = true)
    (hst : streaming w.env f = some (tr, s, j)) :
    rtmp.main 3 w = some
      ([Event.flv_open true, Event.RTMP_LogSetLevel, Event.RTMP_LogSetOutput,
          Event.RTMP_Alloc true, Event.RTMP_Init, Event.RTMP_SetupURL w.setupURL,
          Event.RTMP_EnableWrite, Event.RTMP_Connect true, Event.RTMP_ConnectStream true,
          Event.RTMP_Socket, Event.signal_install, Event.flv_get_tag]
        ++ tr ++ [Event.signal_restore, Event.RTMP_Free, Event.flv_close],
      Outcome.exit s.ret) := by
  unfold rtmp.main
  simp [hopen, ha, hc, hcs, hst, rtmp.restoreSig, rtmp.freeRTMP, rtmp.closeFLV]

/-- main.c in file mode with an opened source and a connected transport, running at the first
test of the outer loop: the setup calls, `flv_open`, the run of the loop, `flv_close` unless
the loop was left by `goto restoreSig`, then `signal` restored, `RTMP_Free`, and
`return ret`. -/
theorem flvcast_main_streams (opts : List Opt) (positional : Nat) (o : Options) (w : World)
    (f : flv) (tr : List Event) (s : LoopState) (j : Bool)
    (hparse : parse_arguments opts positional = some o) (hmode : o.playMode = PlayMode.file)
    (hopen : flv_open w.mem w.content = some f)
    (ha : w.alloc = true) (hu : w.setupURL = true) (hc : w.connect = true)
    (hcs : w.connectStream = true) (hsig : w.outer_signal 0 = false)
    (hst : streaming w.env f = some (tr, s, j)) :
    flvcast.main opts positional w = some
      ([Event.RTMP_LogSetLevel, Event.RTMP_LogSetOutput, Event.RTMP_Alloc true,
          Event.RTMP_Init, Event.RTMP_SetupURL true, Event.RTMP_EnableWrite,
          Event.RTMP_Connect true, Event.RTMP_ConnectStream true, Event.RTMP_Socket,
          Event.signal_install, Event.flv_open true, Event.flv_get_tag]
        ++ tr ++ (if j = true then [] else [Event.flv_close])
        ++ [Event.signal_restore, Event.RTMP_Free],
      Outcome.exit s.ret) := by
  have hplay : flvcast.play 2 o.playMode w 0 true EXIT_SUCCESS
      = some ([Event.flv_open true, Event.flv_get_tag] ++ tr
          ++ (if j = true then [] else [Event.flv_close]), some s.ret) := by
    rw [hmode, flvcast.play, if_neg (by simp [hsig])]
    simp only [hopen]
    unfold streaming at hst
    rw [hst]
    cases j with
    | true => simp
    | false =>
      have hrun := (stream_loop_status _ _ _ _ _ hst).2.2.2 rfl
      simp only at hrun ⊢
      rw [flvcast.play, if_pos (Or.inl hrun)]
      simp
  unfold flvcast.main
  simp [hparse, ha, hu, hc, hcs, hplay]

/-! ## The first tag after `flv_open` -/

/-- With a whole header left, `flv_next` returns with the 11 header bytes of the file at the
start of the buffer. -/
theorem flv_next_header_bytes (f : flv) (h : f.file.pos + 11 ≤ f.file.data.length) :
    ∃ r f1, flv_next f = some (r, f1) ∧
      ∀ i, i < 11 → f1.tag i = f.file.byteAt (f.file.pos + i) := by
  by_cases c2 : f.file.data.length < f.file.pos + 11 + f.file.payloadLength + 4
  · obtain ⟨e1, e2, e3⟩ := header_read f h
    have hL := payloadLength_lt f.file
    unfold flv_next
    rw [e1]
    simp only [ne_eq, not_true_eq_false, if_false, e3]
    rw [fread_short _ FLV_TAG_HEADER_SIZE (f.file.payloadLength + FLV_TAG_FOOTER_SIZE) _
      (by unfold FLV_MAX_TAG_SIZE FLV_TAG_HEADER_SIZE FLV_TAG_PAYLOAD_MAX_SIZE
            FLV_TAG_FOOTER_SIZE
          omega)
      (by unfold FLV_TAG_FOOTER_SIZE; omega)
      (by unfold FLV_TAG_FOOTER_SIZE; simp only; omega)]
    simp only [ne_eq, zero_ne_one, not_false_eq_true, if_true]
    refine ⟨_, _, rfl, ?_⟩
    intro i hi
    simp only [store, FLV_TAG_HEADER_SIZE]
    rw [if_neg (by omega)]
    have := e2 i
    simp only [store] at this
    rw [this, if_pos hi]
  · have hw : f.file.pos + 11 + f.file.payloadLength + 4 ≤ f.file.data.length := by omega
    rw [flv_next_whole f hw]
    split
    · refine ⟨_, _, rfl, ?_⟩
      intro i hi
      simp only
      rw [tagImage_apply f hw i, if_pos (by omega)]
    · refine ⟨_, _, rfl, ?_⟩
      intro i hi
      simp only
      rw [tagImage_apply f hw i, if_pos (by omega)]

/-! ## The option parsing of main.c -/

/-- Without an option that names a play mode, "no `-s` before the `-p`" says that there is no
`-s`. -/
theorem s_follows_p_no_mode (opts : List Opt) (h : opts.any Opt.isMode = false) :
    s_follows_p opts = !opts.any Opt.isS := by
  induction opts with
  | nil => rfl
  | cons o tl ih =>
    simp only [List.any_cons, Bool.or_eq_false_iff] at h
    cases o <;> simp_all [s_follows_p, Opt.isMode, Opt.isS]

theorem countP_isMode_zero (opts : List Opt) :
    (opts.countP Opt.isMode == 0) = !opts.any Opt.isMode := by
  induction opts with
  | nil => rfl
  | cons o tl ih =>
    cases hm : o.isMode
    · simp [List.countP_cons, hm, ih]
    · simp [List.countP_cons, hm]

theorem any_isE_no_mode (opts : List Opt) (h : opts.any Opt.isMode = false) :
    opts.any Opt.isE = false := by
  induction opts with
  | nil => rfl
  | cons o tl ih =>
    simp only [List.any_cons, Bool.or_eq_false_iff] at h
    cases o <;> simp_all [Opt.isMode, Opt.isE]

/-- The option loop once a play mode is set: it runs through exactly when the remaining answers
are known options other than `-f`, `-p`, `-e`, with no `-l` in mode `exec` and no `-s`
outside mode `playlist`; the play mode stays. -/
theorem option_loop_mode_set (opts : List Opt) : ∀ (st : Options),
    st.playMode ≠ PlayMode.none →
    (option_loop opts st).isSome
        = (!opts.any Opt.isUnknown && !opts.any Opt.isMode
            && (!opts.any Opt.isL || decide (st.playMode ≠ PlayMode.exec))
            && (!opts.any Opt.isS || decide (st.playMode = PlayMode.playlist))) ∧
      ∀ st1, option_loop opts st = some st1 → st1.playMode = st.playMode := by
  induction opts with
  | nil => intro st _; simp [option_loop]
  | cons o tl ih =>
    intro st hm
    cases o with
    | v =>
      have := ih { st with verbose := true } hm
      simpa [option_loop, option_case, Opt.isUnknown, Opt.isMode, Opt.isL, Opt.isS] using this
    | l n =>
      by_cases he : st.playMode = PlayMode.exec
      · simp [option_loop, option_case, he, Opt.isUnknown, Opt.isMode, Opt.isL, Opt.isS]
      · have := ih { st with loops := (n % 2 ^ 32).toNat } hm
        simpa [option_loop, option_case, he, Opt.isUnknown, Opt.isMode, Opt.isL, Opt.isS]
          using this
    | f a => simp [option_loop, option_case, hm, Opt.isUnknown, Opt.isMode, Opt.isL, Opt.isS]
    | p a => simp [option_loop, option_case, hm, Opt.isUnknown, Opt.isMode, Opt.isL, Opt.isS]
    | e a => simp [option_loop, option_case, hm, Opt.isUnknown, Opt.isMode, Opt.isL, Opt.isS]
    | s =>
      by_cases hp : st.playMode = PlayMode.playlist
      · have := ih { st with shuffle := true } hm
        simpa [option_loop, option_case, hp, Opt.isUnknown, Opt.isMode, Opt.isL, Opt.isS]
          using this
      · simp [option_loop, option_case, hp, Opt.isUnknown, Opt.isMode, Opt.isL, Opt.isS]
    | unknown =>
      simp [option_loop, option_case, Opt.isUnknown, Opt.isMode, Opt.isL, Opt.isS]

/-- Once a play mode is set, the option loop ends with a play mode exactly when it runs
through. -/
theorem option_loop_mode_set_ends (opts : List Opt) (st : Options)
    (hm : st.playMode ≠ PlayMode.none) :
    (∃ st1, option_loop opts st = some st1 ∧ st1.playMode ≠ PlayMode.none) ↔
      (!opts.any Opt.isUnknown && !opts.any Opt.isMode
          && (!opts.any Opt.isL || decide (st.playMode ≠ PlayMode.exec))
          && (!opts.any Opt.isS || decide (st.playMode = PlayMode.playlist))) = true := by
  obtain ⟨h1, h2⟩ := option_loop_mode_set opts st hm
  rw [← h1]
  constructor
  · rintro ⟨st1, e, _⟩
    rw [e]; rfl
  · intro hs
    obtain ⟨st1, e⟩ := Option.isSome_iff_exists.mp hs
    exact ⟨st1, e, by rw [h2 st1 e]; exact hm⟩

/-- The option loop before a play mode is set, with `shuffle` clear and every loop count of the
remaining `-l` options non-zero: it ends with a play mode exactly when the remaining
answers are known options, name exactly one play mode, have no `-s` before the `-p`, and
have no `-e` together with a `-l` or with a non-zero `loops`. -/
theorem option_loop_no_mode (opts : List Opt) : ∀ (st : Options),
    st.playMode = PlayMode.none → st.shuffle = false →
    (∀ n, Opt.l n ∈ opts → (n % 2 ^ 32).toNat ≠ 0) →
    ((∃ st1, option_loop opts st = some st1 ∧ st1.playMode ≠ PlayMode.none) ↔
      (!opts.any Opt.isUnknown && (opts.countP Opt.isMode == 1) && s_follows_p opts
        && (!opts.any Opt.isE || (!opts.any Opt.isL && st.loops == 0))) = true) := by
  induction opts with
  | nil =>
    intro st hm _ _
    simp [option_loop, hm]
  | cons o tl ih =>
    intro st hm hsh hl
    have hl1 : ∀ n, Opt.l n ∈ tl → (n % 2 ^ 32).toNat ≠ 0 :=
      fun n hn => hl n (List.mem_cons_of_mem _ hn)
    cases o with
    | v =>
      have := ih { st with verbose := true } hm hsh hl1
      simpa [option_loop, option_case, Opt.isUnknown, Opt.isMode, Opt.isL, Opt.isE,
        s_follows_p, List.countP_cons] using this
    | l n =>
      have hn : (n % 2 ^ 32).toNat ≠ 0 := hl n (List.mem_cons_self _ _)
      have hb : ((n % 2 ^ 32).toNat == 0) = false := beq_eq_false_iff_ne.mpr hn
      have := ih { st with loops := (n % 2 ^ 32).toNat } hm hsh hl1
      simp only [option_loop, option_case, hm] at this ⊢
      rw [if_neg (by decide)]
      simp only
      rw [this, hb]
      simp [Opt.isUnknown, Opt.isMode, Opt.isL, Opt.isE, s_follows_p, List.countP_cons]
    | f a =>
      simp only [option_loop, option_case, hm, hsh]
      simp only [ne_eq, not_true_eq_false, if_false, Bool.false_eq_true]
      refine (option_loop_mode_set_ends tl _ (by simp)).trans ?_
      cases hmode : tl.any Opt.isMode
      · have h1 := s_follows_p_no_mode tl hmode
        have h2 := any_isE_no_mode tl hmode
        have h3 := countP_isMode_zero tl
        rw [hmode] at h3
        simp only [Bool.not_false, beq_iff_eq] at h3
        simp [Opt.isUnknown, Opt.isMode, Opt.isL, Opt.isE, s_follows_p, List.countP_cons,
          h1, h2, h3]
      · have h3 := countP_isMode_zero tl
        rw [hmode] at h3
        simp only [Bool.not_true, beq_eq_false_iff_ne, ne_eq] at h3
        simp [Opt.isUnknown, Opt.isMode, Opt.isL, Opt.isE, s_follows_p, List.countP_cons, h3]
    | p a =>
      simp only [option_loop, option_case, hm]
      simp only [ne_eq, not_true_eq_false, if_false]
      refine (option_loop_mode_set_ends tl _ (by simp)).trans ?_
      cases hmode : tl.any Opt.isMode
      · have h2 := any_isE_no_mode tl hmode
        have h3 := countP_isMode_zero tl
        rw [hmode] at h3
        simp only [Bool.not_false, beq_iff_eq] at h3
        simp [Opt.isUnknown, Opt.isMode, Opt.isL, Opt.isE, s_follows_p, List.countP_cons,
          h2, h3]
      · have h3 := countP_isMode_zero tl
        rw [hmode] at h3
        simp only [Bool.not_true, beq_eq_false_iff_ne, ne_eq] at h3
        simp [Opt.isUnknown, Opt.isMode, Opt.isL, Opt.isE, s_follows_p, List.countP_cons, h3]
    | e a =>
      by_cases hloops : st.loops = 0
      · simp only [option_loop, option_case, hm, hsh, hloops]
        simp only [ne_eq, not_true_eq_false, if_false, Bool.false_eq_true]
        refine (option_loop_mode_set_ends tl _ (by simp)).trans ?_
        cases hmode : tl.any Opt.isMode
        · have h1 := s_follows_p_no_mode tl hmode
          have h3 := countP_isMode_zero tl
          rw [hmode] at h3
          simp only [Bool.not_false, beq_iff_eq] at h3
          simp [Opt.isUnknown, Opt.isMode, Opt.isL, Opt.isE, s_follows_p, List.countP_cons,
            h1, h3]
          tauto
        · have h3 := countP_isMode_zero tl
          rw [hmode] at h3
          simp only [Bool.not_true, beq_eq_false_iff_ne, ne_eq] at h3
          simp [Opt.isUnknown, Opt.isMode, Opt.isL, Opt.isE, s_follows_p, List.countP_cons,
            h3]
      · simp [option_loop, option_case, hm, hloops, Opt.isUnknown, Opt.isMode, Opt.isL,
          Opt.isE, s_follows_p, List.countP_cons]
    | s =>
      simp [option_loop, option_case, hm, Opt.isUnknown, Opt.isMode, Opt.isL, Opt.isE,
        s_follows_p, List.countP_cons]
    | unknown =>
      simp [option_loop, option_case, Opt.isUnknown, Opt.isMode, Opt.isL, Opt.isE, s_follows_p,
        List.countP_cons]

/-- The option parsing accepts an argument list whose loop counts are all non-zero exactly when
`cli_in_order` holds. -/
theorem parse_arguments_accepts (opts : List Opt) (positional : Nat)
    (hl : ∀ n, Opt.l n ∈ opts → (n % 2 ^ 32).toNat ≠ 0) :
    (parse_arguments opts positional).isSome = cli_in_order opts positional := by
  have key := option_loop_no_mode opts
    { playMode := PlayMode.none, playParam := none, loops := 0, verbose := false,
      shuffle := false } rfl rfl hl
  simp only [beq_self_eq_true, Bool.and_true] at key
  unfold parse_arguments cli_in_order
  cases hloop : option_loop opts
      { playMode := PlayMode.none, playParam := none, loops := 0, verbose := false,
        shuffle := false } with
  | none =>
    rw [hloop] at key
    have hB : (!opts.any Opt.isUnknown && (opts.countP Opt.isMode == 1) && s_follows_p opts
        && (!opts.any Opt.isE || !opts.any Opt.isL)) = false := by
      rw [← Bool.not_eq_true, ← key]
      simp
    revert hB
    cases opts.any Opt.isUnknown <;> cases (opts.countP Opt.isMode == 1) <;>
      cases s_follows_p opts <;> cases opts.any Opt.isE <;> cases opts.any Opt.isL <;> simp
  | some st =>
    rw [hloop] at key
    simp only [Option.some.injEq, exists_eq_left'] at key
    by_cases hm : st.playMode = PlayMode.none
    · have hB : (!opts.any Opt.isUnknown && (opts.countP Opt.isMode == 1) && s_follows_p opts
          && (!opts.any Opt.isE || !opts.any Opt.isL)) = false := by
        rw [← Bool.not_eq_true, ← key]
        simp [hm]
      simp only [hm, if_true]
      revert hB
      cases opts.any Opt.isUnknown <;> cases (opts.countP Opt.isMode == 1) <;>
        cases s_follows_p opts <;> cases opts.any Opt.isE <;> cases opts.any Opt.isL <;> simp
    · have hB : (!opts.any Opt.isUnknown && (opts.countP Opt.isMode == 1) && s_follows_p opts
          && (!opts.any Opt.isE || !opts.any Opt.isL)) = true := key.mp hm
      simp only [hm, if_false]
      revert hB
      by_cases hp : positional = 1
      · cases opts.any Opt.isUnknown <;> cases (opts.countP Opt.isMode == 1) <;>
          cases s_follows_p opts <;> cases opts.any Opt.isE <;> cases opts.any Opt.isL <;>
          simp [hp]
      · cases opts.any Opt.isUnknown <;> cases (opts.countP Opt.isMode == 1) <;>
          cases s_follows_p opts <;> cases opts.any Opt.isE <;> cases opts.any Opt.isL <;>
          simp [hp]

/-- The outer loop of main.c returns within two tests of its condition. -/
theorem flvcast_play_total (mode : PlayMode) (w : World) (ret : Int) :
    ∃ r, flvcast.play 2 mode w 0 true ret = some r := by
  unfold flvcast.play
  by_cases hsig : w.outer_signal 0 = true
  · rw [if_pos (Or.inr hsig)]; exact ⟨_, rfl⟩
  · rw [if_neg (by simp [hsig])]
    cases mode with
    | file =>
      simp only
      cases hopen : flv_open w.mem w.content with
      | none =>
        simp only
        split <;> exact ⟨_, rfl⟩
      | some f =>
        simp only
        obtain ⟨⟨tr, s, j⟩, hst⟩ := stream_loop_total (f.file.remaining + 2) w.env 0
          { flv := f, prevTimestamp := 0, running := true, ret := ret } (by omega)
          (fun _ => by simp only; omega)
        rw [hst]
        cases j with
        | true => exact ⟨_, rfl⟩
        | false =>
          have hrun := (stream_loop_status _ _ _ _ _ hst).2.2.2 rfl
          simp only at hrun ⊢
          rw [flvcast.play, if_pos (Or.inl hrun)]
          exact ⟨_, rfl⟩
    | none => exact ⟨_, rfl⟩
    | playlist => exact ⟨_, rfl⟩
    | exec => exact ⟨_, rfl⟩

/-- After accepted arguments main.c returns, and its first calls are the transport setup. -/
theorem flvcast_main_accepted (opts : List Opt) (positional : Nat) (o : Options) (w : World)
    (hparse : parse_arguments opts positional = some o) :
    ∃ t out, flvcast.main opts positional w = some (t, out) ∧
      [Event.RTMP_LogSetLevel, Event.RTMP_LogSetOutput, Event.RTMP_Alloc w.alloc] <+: t := by
  unfold flvcast.main
  rw [hparse]
  simp only
  split
  · exact ⟨_, _, rfl, List.prefix_refl _⟩
  · split
    · exact ⟨_, _, rfl, List.prefix_append _ _⟩
    · split
      · exact ⟨_, _, rfl, List.prefix_append _ _⟩
      · split
        · exact ⟨_, _, rfl, List.prefix_append _ _⟩
        · obtain ⟨⟨tr, r⟩, hp⟩ := flvcast_play_total o.playMode w EXIT_SUCCESS
          rw [hp]
          cases r with
          | none =>
            refine ⟨_, _, rfl, ?_⟩
            rw [List.append_assoc]
            exact List.prefix_append _ _
          | some ret =>
            refine ⟨_, _, rfl, ?_⟩
            rw [List.append_assoc, List.append_assoc]
            exact List.prefix_append _ _

/-! ## Pacing -/

theorem usleep_total_append (a b : List Event) :
    usleep_total (a ++ b) = usleep_total a + usleep_total b := by
  induction a with
  | nil => simp [usleep_total]
  | cons e tl ih => cases e <;> simp [usleep_total, ih, Nat.add_assoc]

/-- A pass in which `flv_next`, `RTMP_Write` and `select` all succeed, seen from the pacing
code: the pass does not jump and leaves `ret` and `running` alone; with the timestamp
above `prevTimestamp` it calls `usleep` once, on `1000 * (timestamp - prevTimestamp)`
reduced modulo `2 ^ 64` and then modulo `2 ^ 32`, and stores the timestamp; otherwise it calls no `usleep` and
leaves `prevTimestamp` alone. -/
theorem loop_body_pacing (e : Iter) (s : LoopState) (n : Int) (f1 : flv)
    (h : flv_next s.flv = some (n, f1)) (hn : 0 < n)
    (hw : 0 < e.write_ret) (hs : e.select_ret ≠ -1) :
    ∃ evs s1, loop_body e s = some (evs, s1, false) ∧
      s1.flv = f1 ∧ s1.ret = s.ret ∧ s1.running = s.running ∧
      (s.prevTimestamp < flv_get_timestamp f1 →
        s1.prevTimestamp = flv_get_timestamp f1 ∧
        usleep_total evs
          = 1000 * (flv_get_timestamp f1 - s.prevTimestamp) % 2 ^ ULONG_BITS
            % 2 ^ USECONDS_BITS ∧
        Event.usleep (1000 * (flv_get_timestamp f1 - s.prevTimestamp) % 2 ^ ULONG_BITS
            % 2 ^ USECONDS_BITS)
          ∈ evs) ∧
      (flv_get_timestamp f1 ≤ s.prevTimestamp →
        s1.prevTimestamp = s.prevTimestamp ∧ usleep_total evs = 0 ∧
        ∀ u, Event.usleep u ∉ evs) := by
  unfold loop_body
  rw [h]
  simp only
  rw [if_neg (by omega), if_neg (by omega), if_neg (by omega), if_neg hs]
  by_cases ht : s.prevTimestamp < flv_get_timestamp f1
  · rw [if_pos ht]
    refine ⟨_, _, rfl, rfl, rfl, rfl, ?_, fun hle => absurd ht (by omega)⟩
    intro _
    refine ⟨rfl, ?_, ?_⟩
    · cases e.readable <;> cases e.packet <;> simp [usleep_total]
    · simp
  · rw [if_neg ht]
    refine ⟨_, _, rfl, rfl, rfl, rfl, fun hlt => absurd hlt ht, ?_⟩
    intro _
    refine ⟨rfl, ?_, ?_⟩
    · cases e.readable <;> cases e.packet <;> simp [usleep_total]
    · intro u
      cases e.readable <;> cases e.packet <;> simp

/-- One pass keeps the pacing account when the timestamp it reads is below 4294968, so that
1000 times it is below `2 ^ 32`: `prevTimestamp` does not go down and the microseconds asked
of `usleep` are 1000 times its increase. -/
theorem loop_body_pacing_account (e : Iter) (s s1 : LoopState) (evs : List Event) (j : Bool)
    (h : loop_body e s = some (evs, s1, j))
    (hts : ∀ r f1, flv_next s.flv = some (r, f1) → flv_get_timestamp f1 < 4294968)
    (hp : s.prevTimestamp < 4294968) :
    s.prevTimestamp ≤ s1.prevTimestamp ∧ s1.prevTimestamp < 4294968 ∧
      usleep_total evs + 1000 * s.prevTimestamp = 1000 * s1.prevTimestamp := by
  unfold loop_body at h
  split at h
  · exact absurd h (by simp)
  · rename_i tagSize f1 hnext
    have ht := hts tagSize f1 hnext
    simp only at h
    split at h
    · simp only [Option.some.injEq, Prod.mk.injEq] at h
      obtain ⟨h1, h2, _⟩ := h
      subst h1 h2
      exact ⟨le_refl _, hp, by simp [usleep_total]⟩
    · split at h
      · simp only [Option.some.injEq, Prod.mk.injEq] at h
        obtain ⟨h1, h2, _⟩ := h
        subst h1 h2
        exact ⟨le_refl _, hp, by simp [usleep_total]⟩
      · split at h
        · simp only [Option.some.injEq, Prod.mk.injEq] at h
          obtain ⟨h1, h2, _⟩ := h
          subst h1 h2
          exact ⟨le_refl _, hp, by simp [usleep_total]⟩
        · split at h
          · simp only [Option.some.injEq, Prod.mk.injEq] at h
            obtain ⟨h1, h2, _⟩ := h
            subst h1 h2
            exact ⟨le_refl _, hp, by simp [usleep_total]⟩
          · split at h
            · rename_i hlt
              simp only [Option.some.injEq, Prod.mk.injEq] at h
              obtain ⟨h1, h2, _⟩ := h
              subst h1 h2
              simp only
              refine ⟨by omega, ht, ?_⟩
              rw [usleep_total_append, usleep_total_append]
              have hz : usleep_total (if e.readable = true then
                  if e.packet = true then [Event.RTMP_ReadPacket, Event.RTMP_ClientPacket]
                  else [Event.RTMP_ReadPacket] else []) = 0 := by
                cases e.readable <;> cases e.packet <;> simp [usleep_total]
              rw [hz]
              simp only [usleep_total, ULONG_BITS, USECONDS_BITS]
              rw [Nat.mod_eq_of_lt (a := 1000 * (flv_get_timestamp f1 - s.prevTimestamp))
                (by omega), Nat.mod_eq_of_lt (by omega)]
              omega
            · rename_i hlt
              simp only [Option.some.injEq, Prod.mk.injEq] at h
              obtain ⟨h1, h2, _⟩ := h
              subst h1 h2
              simp only
              refine ⟨le_refl _, hp, ?_⟩
              rw [usleep_total_append]
              have hz : usleep_total (if e.readable = true then
                  if e.packet = true then [Event.RTMP_ReadPacket, Event.RTMP_ClientPacket]
                  else [Event.RTMP_ReadPacket] else []) = 0 := by
                cases e.readable <;> cases e.packet <;> simp [usleep_total]
              rw [hz]
              simp [usleep_total]

/-- The whole run keeps the pacing account when every timestamp it reads is below 4294968. -/
theorem stream_loop_pacing_account (fuel : Nat) :
    ∀ (env : Nat → Iter) (i : Nat) (s : LoopState) (r : List Event × LoopState × Bool),
    stream_loop fuel env i s = some r →
    (∀ p ∈ passes fuel env i s, ∀ n f1, flv_next p.2.flv = some (n, f1) →
      flv_get_timestamp f1 < 4294968) →
    s.prevTimestamp < 4294968 →
    s.prevTimestamp ≤ r.2.1.prevTimestamp ∧ r.2.1.prevTimestamp < 4294968 ∧
      usleep_total r.1 + 1000 * s.prevTimestamp = 1000 * r.2.1.prevTimestamp := by
  induction fuel with
  | zero => intro env i s r h; simp [stream_loop] at h
  | succ fuel ih =>
    intro env i s r h hts hp
    rw [stream_loop] at h
    rw [passes] at hts
    split at h
    · rename_i hc
      simp only [Option.some.injEq] at h
      subst h
      exact ⟨le_refl _, hp, by simp [usleep_total]⟩
    · rename_i hc
      rw [if_neg hc] at hts
      split at h
      · exact absurd h (by simp)
      · rename_i evs s1 hb
        simp only [Option.some.injEq] at h
        subst h
        rw [hb] at hts
        exact loop_body_pacing_account _ _ _ _ _ hb
          (hts (i, s) (by simp)) hp
      · rename_i evs s1 hb
        rw [hb] at hts
        simp only [List.mem_cons, forall_eq_or_imp] at hts
        obtain ⟨h0, hrest⟩ := hts
        have a1 := loop_body_pacing_account _ _ _ _ _ hb h0 hp
        split at h
        · exact absurd h (by simp)
        · rename_i evs2 s2 jumped h2
          simp only [Option.some.injEq] at h
          subst h
          have a2 := ih env (i + 1) s1 _ h2 hrest a1.2.1
          simp only at a2 ⊢
          rw [usleep_total_append]
          omega

/-! ## Cancellation before the first tag, and accepted argument lists -/

/-- Cancellation before the first tag, with the transport set up and connected and the
arguments of main.c accepted.
If a signal has cleared `running` before the first test of the outer loop of main.c, main.c
opens no source, calls neither `flv_next` nor `RTMP_Write`, calls `RTMP_Free` once and
returns `EXIT_SUCCESS`. If the source has been opened and the signal has come before the
first test of the loop that reads tags, rtmp.c (and main.c in file mode) call neither
`flv_next` nor `RTMP_Write`, call `RTMP_Free` once and `flv_close` once, and return
`EXIT_SUCCESS`. -/
theorem cancelled_before_first_tag_opened (w : World) (opts : List Opt) (positional : Nat)
    (o : Options)
    (ha : w.alloc = true) (hu : w.setupURL = true) (hc : w.connect = true)
    (hcs : w.connectStream = true) (hparse : parse_arguments opts positional = some o) :
    (w.outer_signal 0 = true →
      flvcast.main opts positional w = some
        ([Event.RTMP_LogSetLevel, Event.RTMP_LogSetOutput, Event.RTMP_Alloc true,
          Event.RTMP_Init, Event.RTMP_SetupURL true, Event.RTMP_EnableWrite,
          Event.RTMP_Connect true, Event.RTMP_ConnectStream true, Event.RTMP_Socket,
          Event.signal_install, Event.signal_restore, Event.RTMP_Free],
        Outcome.exit EXIT_SUCCESS)) ∧
    (∀ f, flv_open w.mem w.content = some f → (w.env 0).signal = true →
      rtmp.main 3 w = some
        ([Event.flv_open true, Event.RTMP_LogSetLevel, Event.RTMP_LogSetOutput,
          Event.RTMP_Alloc true, Event.RTMP_Init, Event.RTMP_SetupURL true,
          Event.RTMP_EnableWrite, Event.RTMP_Connect true, Event.RTMP_ConnectStream true,
          Event.RTMP_Socket, Event.signal_install, Event.flv_get_tag, Event.signal_restore,
          Event.RTMP_Free, Event.flv_close],
        Outcome.exit EXIT_SUCCESS) ∧
      (o.playMode = PlayMode.file → w.outer_signal 0 = false →
        flvcast.main opts positional w = some
          ([Event.RTMP_LogSetLevel, Event.RTMP_LogSetOutput, Event.RTMP_Alloc true,
            Event.RTMP_Init, Event.RTMP_SetupURL true, Event.RTMP_EnableWrite,
            Event.RTMP_Connect true, Event.RTMP_ConnectStream true, Event.RTMP_Socket,
            Event.signal_install, Event.flv_open true, Event.flv_get_tag, Event.flv_close,
            Event.signal_restore, Event.RTMP_Free],
          Outcome.exit EXIT_SUCCESS))) := by
  constructor
  · intro hsig
    have hplay : flvcast.play 2 o.playMode w 0 true EXIT_SUCCESS
        = some ([], some EXIT_SUCCESS) := by
      unfold flvcast.play
      rw [if_pos (Or.inr hsig)]
    unfold flvcast.main
    simp [hparse, ha, hu, hc, hcs, hplay]
  · intro f hopen hsig
    have hst : streaming w.env f
        = some ([], { flv := f, prevTimestamp := 0, running := false, ret := EXIT_SUCCESS },
            false) := by
      unfold streaming
      rw [stream_loop, if_pos (Or.inr hsig)]
    constructor
    · have h := rtmp_main_streams w f _ _ _ hopen ha hc hcs hst
      rw [h, hu]
      rfl
    · intro hmode hout
      have h := flvcast_main_streams opts positional o w f _ _ _ hparse hmode hopen ha hu hc
        hcs hout hst
      rw [h]
      rfl

/-- Cancellation before the first tag in worlds where a signal has come before the first test: main.c before any source is
opened, rtmp.c and main.c with the 13-byte file `flvHeader` opened. -/
theorem cancelled_before_first_tag_example :
    (cancelledWorld (some flvHeader)).alloc = true ∧
    (cancelledWorld (some flvHeader)).setupURL = true ∧
    (cancelledWorld (some flvHeader)).connect = true ∧
    (cancelledWorld (some flvHeader)).connectStream = true ∧
    parse_arguments [Opt.f 2] 1 = some fileOptions ∧
    flv_open (cancelledWorld (some flvHeader)).mem (cancelledWorld (some flvHeader)).content
      = some (openedOn []) ∧
    flvcast.main [Opt.f 2] 1 (cancelledWorld (some flvHeader)) = some
      ([Event.RTMP_LogSetLevel, Event.RTMP_LogSetOutput, Event.RTMP_Alloc true,
        Event.RTMP_Init, Event.RTMP_SetupURL true, Event.RTMP_EnableWrite,
        Event.RTMP_Connect true, Event.RTMP_ConnectStream true, Event.RTMP_Socket,
        Event.signal_install, Event.signal_restore, Event.RTMP_Free],
      Outcome.exit EXIT_SUCCESS) ∧
    rtmp.main 3 (cancelledWorld (some flvHeader)) = some
      ([Event.flv_open true, Event.RTMP_LogSetLevel, Event.RTMP_LogSetOutput,
        Event.RTMP_Alloc true, Event.RTMP_Init, Event.RTMP_SetupURL true,
        Event.RTMP_EnableWrite, Event.RTMP_Connect true, Event.RTMP_ConnectStream true,
        Event.RTMP_Socket, Event.signal_install, Event.flv_get_tag, Event.signal_restore,
        Event.RTMP_Free, Event.flv_close],
      Outcome.exit EXIT_SUCCESS) ∧
    flvcast.main [Opt.f 2] 1 (lateCancelWorld (some flvHeader)) = some
      ([Event.RTMP_LogSetLevel, Event.RTMP_LogSetOutput, Event.RTMP_Alloc true,
        Event.RTMP_Init, Event.RTMP_SetupURL true, Event.RTMP_EnableWrite,
        Event.RTMP_Connect true, Event.RTMP_ConnectStream true, Event.RTMP_Socket,
        Event.signal_install, Event.flv_open true, Event.flv_get_tag, Event.flv_close,
        Event.signal_restore, Event.RTMP_Free],
      Outcome.exit EXIT_SUCCESS) :=
  ⟨rfl, rfl, rfl, rfl, rfl, rfl,
    (cancelled_before_first_tag_opened (cancelledWorld (some flvHeader)) [Opt.f 2] 1 fileOptions
      rfl rfl rfl rfl rfl).1 rfl,
    ((cancelled_before_first_tag_opened (cancelledWorld (some flvHeader)) [Opt.f 2] 1 fileOptions
      rfl rfl rfl rfl rfl).2 (openedOn []) rfl rfl).1,
    ((cancelled_before_first_tag_opened (lateCancelWorld (some flvHeader)) [Opt.f 2] 1 fileOptions
      rfl rfl rfl rfl rfl).2 (openedOn []) rfl rfl).2 rfl rfl⟩

/-- For every list of `getopt` answers whose `-l` counts are all non-zero, and
every number of positional arguments, the option parsing of main.c accepts exactly when
the options are all known, exactly one of -f, -p, -e is given, no -l is given together
with -e, no -s comes before the -p, and there is exactly one positional argument. When it
accepts, main.c returns after starting the transport setup (`RTMP_LogSetLevel`,
`RTMP_LogSetOutput`, `RTMP_Alloc`); when it does not, main.c exits with the non-zero
status `EXIT_FAILURE` without having made any call. -/
theorem parser_accepts_iff_in_order (opts : List Opt) (positional : Nat)
    (hl : ∀ n, Opt.l n ∈ opts → (n % 2 ^ 32).toNat ≠ 0) :
    (parse_arguments opts positional).isSome = cli_in_order opts positional ∧
    (cli_in_order opts positional = true → ∀ w : World, ∃ t out,
      flvcast.main opts positional w = some (t, out) ∧
      [Event.RTMP_LogSetLevel, Event.RTMP_LogSetOutput, Event.RTMP_Alloc w.alloc] <+: t) ∧
    (cli_in_order opts positional = false → ∀ w : World,
      flvcast.main opts positional w = some ([], Outcome.exit EXIT_FAILURE)) ∧
    EXIT_FAILURE ≠ 0 := by
  have hacc := parse_arguments_accepts opts positional hl
  refine ⟨hacc, ?_, ?_, by decide⟩
  · intro hc w
    rw [← hacc] at hc
    obtain ⟨o, ho⟩ := Option.isSome_iff_exists.mp hc
    exact flvcast_main_accepted opts positional o w ho
  · intro hc w
    rw [← hacc] at hc
    have hn : parse_arguments opts positional = none := by
      cases hp : parse_arguments opts positional with
      | none => rfl
      | some o => rw [hp] at hc; simp at hc
    unfold flvcast.main
    rw [hn]

/-- The arguments `-p <list> -s -l 3 <url>` are accepted. -/
theorem parser_accepts_iff_in_order_example :
    (∀ n, Opt.l n ∈ [Opt.p 2, Opt.s, Opt.l 3] → (n % 2 ^ 32).toNat ≠ 0) ∧
    ((parse_arguments [Opt.p 2, Opt.s, Opt.l 3] 1).isSome
        = cli_in_order [Opt.p 2, Opt.s, Opt.l 3] 1 ∧
      (cli_in_order [Opt.p 2, Opt.s, Opt.l 3] 1 = true → ∀ w : World, ∃ t out,
        flvcast.main [Opt.p 2, Opt.s, Opt.l 3] 1 w = some (t, out) ∧
        [Event.RTMP_LogSetLevel, Event.RTMP_LogSetOutput, Event.RTMP_Alloc w.alloc] <+: t) ∧
      (cli_in_order [Opt.p 2, Opt.s, Opt.l 3] 1 = false → ∀ w : World,
        flvcast.main [Opt.p 2, Opt.s, Opt.l 3] 1 w = some ([], Outcome.exit EXIT_FAILURE)) ∧
      EXIT_FAILURE ≠ 0) ∧
    cli_in_order [Opt.p 2, Opt.s, Opt.l 3] 1 = true :=
  ⟨fun n hn => by simp at hn; subst hn; decide,
    parser_accepts_iff_in_order [Opt.p 2, Opt.s, Opt.l 3] 1
      (fun n hn => by simp at hn; subst hn; decide),
    by decide⟩

/-! ## The claims -/

/-- C1 (defect): on the value 0xFFFFFFFF the setter followed by the getter does not give the
value back. For every tag buffer the getter returns 0xFFFFFFFFFFFFFFFF: byte 7 is shifted
as a negative `int` and sign-extended when it is widened to `unsigned long`. -/
theorem C1_set_get_timestamp_sign_extends (f : flv) :
    flv_get_timestamp (flv_set_timestamp f 0xFFFFFFFF) = 0xFFFFFFFFFFFFFFFF ∧
      flv_get_timestamp (flv_set_timestamp f 0xFFFFFFFF) ≠ 0xFFFFFFFF := by
  rw [get_set_timestamp]
  decide

/-- C2 (defect): for every tag buffer whose byte 7 is 0x80 and whose bytes 4..6 are zero, the
getter returns 0xFFFFFFFF80000000, which is not below 2^32 and is not the 32-bit value
0x80000000 of the header field. -/
theorem C2_get_timestamp_exceeds_32_bits (f : flv) (tag : Nat → UChar) :
    flv_get_timestamp { f with
        tag := fun i => if i = 7 then 0x80 else if 4 ≤ i ∧ i ≤ 6 then 0 else tag i }
      = 0xFFFFFFFF80000000 ∧
    ¬ flv_get_timestamp { f with
        tag := fun i => if i = 7 then 0x80 else if 4 ≤ i ∧ i ≤ 6 then 0 else tag i }
      < 2 ^ 32 := by
  rw [flv_get_timestamp_eq]
  simp [be32]
  decide

/-- C3: when the header, the payload and the footer of the tag at the file position are all
present, `flv_next` returns a value, positive exactly when the big-endian footer equals
11 + payload length; it is then 11 + payload length + 4, and it is -1 otherwise. -/
theorem C3_next_accepts_iff_footer_matches (f : flv)
    (h : f.file.pos + 11 + f.file.payloadLength + 4 ≤ f.file.data.length) :
    ∃ r f1, flv_next f = some (r, f1) ∧
      (0 < r ↔ f.file.footer = 11 + f.file.payloadLength) ∧
      (f.file.footer = 11 + f.file.payloadLength → r = ((11 + f.file.payloadLength + 4 : Nat) : Int)) ∧
      (f.file.footer ≠ 11 + f.file.payloadLength → r = -1) := by
  rw [flv_next_whole f h]
  by_cases hf : f.file.footer = 11 + f.file.payloadLength
  · rw [if_pos hf]
    refine ⟨_, _, rfl, ?_, fun _ => rfl, fun hn => absurd hf hn⟩
    constructor
    · intro _; exact hf
    · intro _; omega
  · rw [if_neg hf]
    refine ⟨_, _, rfl, ?_, fun hn => absurd hn hf, fun _ => rfl⟩
    constructor
    · intro h0; omega
    · intro h0; exact absurd h0 hf

/-- C3 at a tag with an empty payload and footer 00 00 00 0B: accepted, the result is 15. -/
theorem C3_next_accepts_iff_footer_matches_witness :
    (flvOf [9, 0, 0, 0, 0, 0, 0, 0, 0, 0, 0, 0, 0, 0, 0x0B]).file.pos + 11
        + (flvOf [9, 0, 0, 0, 0, 0, 0, 0, 0, 0, 0, 0, 0, 0, 0x0B]).file.payloadLength + 4
      ≤ (flvOf [9, 0, 0, 0, 0, 0, 0, 0, 0, 0, 0, 0, 0, 0, 0x0B]).file.data.length ∧
    (∃ r f1, flv_next (flvOf [9, 0, 0, 0, 0, 0, 0, 0, 0, 0, 0, 0, 0, 0, 0x0B]) = some (r, f1) ∧
      (0 < r ↔ (flvOf [9, 0, 0, 0, 0, 0, 0, 0, 0, 0, 0, 0, 0, 0, 0x0B]).file.footer
        = 11 + (flvOf [9, 0, 0, 0, 0, 0, 0, 0, 0, 0, 0, 0, 0, 0, 0x0B]).file.payloadLength) ∧
      ((flvOf [9, 0, 0, 0, 0, 0, 0, 0, 0, 0, 0, 0, 0, 0, 0x0B]).file.footer
        = 11 + (flvOf [9, 0, 0, 0, 0, 0, 0, 0, 0, 0, 0, 0, 0, 0, 0x0B]).file.payloadLength →
        r = ((11 + (flvOf [9, 0, 0, 0, 0, 0, 0, 0, 0, 0, 0, 0, 0, 0, 0x0B]).file.payloadLength
          + 4 : Nat) : Int)) ∧
      ((flvOf [9, 0, 0, 0, 0, 0, 0, 0, 0, 0, 0, 0, 0, 0, 0x0B]).file.footer
        ≠ 11 + (flvOf [9, 0, 0, 0, 0, 0, 0, 0, 0, 0, 0, 0, 0, 0, 0x0B]).file.payloadLength →
        r = -1)) ∧
    (flv_next (flvOf [9, 0, 0, 0, 0, 0, 0, 0, 0, 0, 0, 0, 0, 0, 0x0B])).map Prod.fst = some 15 :=
  ⟨by decide,
    C3_next_accepts_iff_footer_matches
      (flvOf [9, 0, 0, 0, 0, 0, 0, 0, 0, 0, 0, 0, 0, 0, 0x0B]) (by decide),
    by decide⟩

/-- C4 as stated fails: with five bytes left, a truncated header, `flv_next` returns 0 and no
negative value. -/
theorem C4_truncated_header_counterexample :
    1 ≤ (flvOf [9, 0, 0, 0, 0]).file.remaining ∧ (flvOf [9, 0, 0, 0, 0]).file.remaining ≤ 10 ∧
    (flv_next (flvOf [9, 0, 0, 0, 0])).map Prod.fst = some 0 ∧
    ¬ ∃ r f1, flv_next (flvOf [9, 0, 0, 0, 0]) = some (r, f1) ∧ r < 0 := by
  refine ⟨by decide, by decide, by decide, ?_⟩
  rintro ⟨r, f1, h, hr⟩
  have h0 : (flv_next (flvOf [9, 0, 0, 0, 0])).map Prod.fst = some 0 := by decide
  rw [h] at h0
  simp only [Option.map_some', Option.some.injEq] at h0
  omega

/-- C4 (amended): with 1 to 10 bytes left when `flv_next` is called, the header read comes up
short at end-of-file and `flv_next` returns 0, the end-of-stream value, with the
end-of-file indicator set. -/
theorem C4_truncated_header_returns_zero (f : flv)
    (h1 : 1 ≤ f.file.remaining) (h2 : f.file.remaining ≤ 10) :
    ∃ f1, flv_next f = some (0, f1) ∧ feof f1.file = true := by
  have hlen : f.file.data.length < f.file.pos + 11 := by
    unfold FILE.remaining at h1 h2; omega
  exact ⟨_, flv_next_short_header f hlen, rfl⟩

/-- C4 (amended) on a source of five bytes. -/
theorem C4_truncated_header_returns_zero_witness :
    1 ≤ (flvOf [9, 0, 0, 0, 0]).file.remaining ∧ (flvOf [9, 0, 0, 0, 0]).file.remaining ≤ 10 ∧
    ∃ f1, flv_next (flvOf [9, 0, 0, 0, 0]) = some (0, f1) ∧ feof f1.file = true :=
  ⟨by decide, by decide,
    C4_truncated_header_returns_zero (flvOf [9, 0, 0, 0, 0]) (by decide) (by decide)⟩

/-- C5: with a whole 11-byte header left but fewer than payload length + 4 bytes after it,
`flv_next` returns -1 (not 0), although the short read has set the end-of-file
indicator. -/
theorem C5_truncated_payload_is_error (f : flv)
    (h : f.file.pos + 11 ≤ f.file.data.length)
    (h2 : f.file.data.length - (f.file.pos + 11) < f.file.payloadLength + 4) :
    ∃ f1, flv_next f = some (-1, f1) ∧ feof f1.file = true := by
  obtain ⟨f1, e, he, _⟩ := flv_next_short_payload f h (by omega)
  exact ⟨f1, e, he⟩

/-- C5 on a header that declares one payload byte, followed by four bytes only. -/
theorem C5_truncated_payload_is_error_witness :
    (flvOf [9, 0, 0, 1, 0, 0, 0, 0, 0, 0, 0, 0, 0, 0, 12]).file.pos + 11
      ≤ (flvOf [9, 0, 0, 1, 0, 0, 0, 0, 0, 0, 0, 0, 0, 0, 12]).file.data.length ∧
    (flvOf [9, 0, 0, 1, 0, 0, 0, 0, 0, 0, 0, 0, 0, 0, 12]).file.data.length
        - ((flvOf [9, 0, 0, 1, 0, 0, 0, 0, 0, 0, 0, 0, 0, 0, 12]).file.pos + 11)
      < (flvOf [9, 0, 0, 1, 0, 0, 0, 0, 0, 0, 0, 0, 0, 0, 12]).file.payloadLength + 4 ∧
    ∃ f1, flv_next (flvOf [9, 0, 0, 1, 0, 0, 0, 0, 0, 0, 0, 0, 0, 0, 12]) = some (-1, f1) ∧
      feof f1.file = true :=
  ⟨by decide, by decide,
    C5_truncated_payload_is_error (flvOf [9, 0, 0, 1, 0, 0, 0, 0, 0, 0, 0, 0, 0, 0, 12])
      (by decide) (by decide)⟩

/-- C6: called with no byte left after the file position, `flv_next` returns 0. -/
theorem C6_end_of_source_returns_zero (f : flv) (h : f.file.remaining = 0) :
    ∃ f1, flv_next f = some (0, f1) := by
  have hlen : f.file.data.length < f.file.pos + 11 := by
    unfold FILE.remaining at h; omega
  exact ⟨_, flv_next_short_header f hlen⟩

/-- C6 on the empty source. -/
theorem C6_end_of_source_returns_zero_witness :
    (flvOf []).file.remaining = 0 ∧ ∃ f1, flv_next (flvOf []) = some (0, f1) :=
  ⟨by decide, C6_end_of_source_returns_zero (flvOf []) (by decide)⟩

/-- C7: when `flv_next` returns a positive value, the value is 11 + L + 4 for the declared
payload length L, it lies in 15..16777230, `flv_get_tag_size` returns the same value, the
first 11 + L + 4 bytes of the buffer are the bytes of the source from the old file
position on (all of them inside the file), and the file position has moved forward by
11 + L + 4 over unchanged file content. -/
theorem C7_next_success_postcondition (f f1 : flv) (r : Int)
    (h : flv_next f = some (r, f1)) (hr : 0 < r) :
    r = ((11 + f.file.payloadLength + 4 : Nat) : Int) ∧
    15 ≤ r ∧ r ≤ 16777230 ∧
    ((flv_get_tag_size f1 : Nat) : Int) = r ∧
    f.file.pos + (11 + f.file.payloadLength + 4) ≤ f.file.data.length ∧
    (∀ i, i < 11 + f.file.payloadLength + 4 →
      flv_get_tag f1 i = f.file.byteAt (f.file.pos + i)) ∧
    f1.file.pos = f.file.pos + (11 + f.file.payloadLength + 4) ∧
    f1.file.data = f.file.data := by
  have hL := payloadLength_lt f.file
  obtain ⟨hw, hr1, e⟩ := flv_next_positive f f1 r h hr
  subst e
  refine ⟨hr1, by omega, by omega, ?_, by omega, ?_, ?_, rfl⟩
  · simp only [flv_get_tag_size]; exact hr1.symm
  · intro i hi
    simp only [flv_get_tag]
    rw [tagImage_apply f hw i, if_pos hi]
  · simp only; omega

/-- C7 on a tag with an empty payload. -/
theorem C7_next_success_postcondition_witness :
    flv_next (flvOf emptyTag) = some (15, emptyTagRead) ∧
    (0 : Int) < 15 ∧
    ((15 : Int) = ((11 + (flvOf emptyTag).file.payloadLength + 4 : Nat) : Int) ∧
    (15 : Int) ≤ 15 ∧ (15 : Int) ≤ 16777230 ∧
    ((flv_get_tag_size emptyTagRead : Nat) : Int) = 15 ∧
    (flvOf emptyTag).file.pos + (11 + (flvOf emptyTag).file.payloadLength + 4)
      ≤ (flvOf emptyTag).file.data.length ∧
    (∀ i, i < 11 + (flvOf emptyTag).file.payloadLength + 4 →
      flv_get_tag emptyTagRead i
        = (flvOf emptyTag).file.byteAt ((flvOf emptyTag).file.pos + i)) ∧
    emptyTagRead.file.pos
      = (flvOf emptyTag).file.pos + (11 + (flvOf emptyTag).file.payloadLength + 4) ∧
    emptyTagRead.file.data = (flvOf emptyTag).file.data) :=
  ⟨rfl, by decide,
    C7_next_success_postcondition (flvOf emptyTag) emptyTagRead 15 rfl (by decide)⟩

/-- C8: a source whose first three bytes are not 'F','L','V' is refused by `flv_open` (the
result is `NULL`), whatever its other bytes and its length, and whatever `malloc` hands
out. -/
theorem C8_open_rejects_bad_signature (mem : Option ((Nat → UChar) × Nat)) (d : List UChar)
    (h : d.take 3 ≠ [0x46, 0x4C, 0x56]) :
    flv_open mem (some d) = none := by
  rcases mem with _ | ⟨buf, sz⟩
  · rfl
  · unfold flv_open fopen
    simp only []
    by_cases hl : d.length < 9
    · rw [show FLV_FILE_HEADER_SIZE = 9 from rfl,
        fread_short buf 0 9 { data := d, pos := 0, eof := false }
          (by unfold FLV_MAX_TAG_SIZE FLV_TAG_HEADER_SIZE; omega) (by omega)
          (by simp only; omega)]
      simp
    · have hlen : 9 ≤ d.length := by omega
      rw [show FLV_FILE_HEADER_SIZE = 9 from rfl,
        fread_full buf 0 9 { data := d, pos := 0, eof := false }
          (by unfold FLV_MAX_TAG_SIZE FLV_TAG_HEADER_SIZE; omega) (by omega)
          (by simp only; omega)]
      simp only [ne_eq, not_true_eq_false, if_false]
      have hw := store_window buf 0 9 { data := d, pos := 0, eof := false }
        (by simp only; omega)
      simp only [] at hw
      rw [if_pos]
      rw [u32be_eq, hw 0, hw 1, hw 2, hw 3]
      simp only [FILE.byteAt, Nat.zero_le, true_and, Nat.sub_zero, Nat.zero_add,
        show (0 : Nat) < 0 + 9 by omega, show (1 : Nat) < 0 + 9 by omega,
        show (2 : Nat) < 0 + 9 by omega, show (3 : Nat) < 0 + 9 by omega, if_true]
      rcases d with _ | ⟨b0, _ | ⟨b1, _ | ⟨b2, _ | ⟨b3, rest⟩⟩⟩⟩
      · simp at hlen
      · simp at hlen
      · simp at hlen
      · simp at hlen
      · simp only [List.take_succ_cons, List.take_zero, ne_eq, List.cons.injEq, and_true] at h
        simp only [List.getD_cons_zero, List.getD_cons_succ, be32]
        have h0 := b0.isLt
        have h1 := b1.isLt
        have h2 := b2.isLt
        have h3 := b3.isLt
        intro hh
        apply h
        refine ⟨Fin.ext ?_, Fin.ext ?_, Fin.ext ?_⟩
        · show b0.val = 0x46
          split at hh <;> omega
        · show b1.val = 0x4C
          split at hh <;> omega
        · show b2.val = 0x56
          split at hh <;> omega

/-- C8 on a 13-byte source that starts with 'F','L','W'. -/
theorem C8_open_rejects_bad_signature_witness :
    List.take 3 ([0x46, 0x4C, 0x57, 1, 5, 0, 0, 0, 9, 0, 0, 0, 0] : List UChar)
      ≠ [0x46, 0x4C, 0x56] ∧
    flv_open (some (fun _ => 0, 0)) (some [0x46, 0x4C, 0x57, 1, 5, 0, 0, 0, 9, 0, 0, 0, 0])
      = none :=
  ⟨by decide,
    C8_open_rejects_bad_signature (some (fun _ => 0, 0))
      [0x46, 0x4C, 0x57, 1, 5, 0, 0, 0, 9, 0, 0, 0, 0] (by decide)⟩

/-- C9: the payload length that `flv_next` decodes from bytes 1..3 of any buffer is at most
0xFFFFFF, so the store of payload length + 4 bytes at offset 11 and the four loads at
11 + payload length end inside the `FLV_MAX_TAG_SIZE` bytes of the buffer; and on every
object `flv_next` returns without an access outside the buffer. -/
theorem C9_next_stays_inside_buffer (f : flv) :
    (∀ tag : Nat → UChar,
      u24be tag 1 ≤ FLV_TAG_PAYLOAD_MAX_SIZE ∧
      FLV_TAG_HEADER_SIZE + (u24be tag 1 + FLV_TAG_FOOTER_SIZE) ≤ FLV_MAX_TAG_SIZE ∧
      (FLV_TAG_HEADER_SIZE + u24be tag 1) + 3 < FLV_MAX_TAG_SIZE) ∧
    FLV_MAX_TAG_SIZE = 11 + 0xFFFFFF + 4 ∧
    (flv_next f).isSome = true := by
  refine ⟨?_, rfl, ?_⟩
  · intro tag
    have hlt := be24_lt (tag 1) (tag (1 + 1)) (tag (1 + 2))
    rw [u24be_eq]
    unfold FLV_MAX_TAG_SIZE FLV_TAG_HEADER_SIZE FLV_TAG_PAYLOAD_MAX_SIZE FLV_TAG_FOOTER_SIZE
    omega
  · obtain ⟨r, f1, e⟩ := flv_next_total f
    rw [e]; rfl

/-- C10 as stated fails. On two tags with timestamps 100 then 250 (both written, in order) the
pause asked for between the first and the second `RTMP_Write` is 100 ms (100000
microseconds), not 150 ms; on timestamps 250 then 100 it is 250 ms, not zero. -/
theorem C10_pause_between_writes_counterexample :
    (flv_next (flvOf (tsTag 0 0 100 0 ++ tsTag 0 0 250 0))).map
        (fun r => flv_get_timestamp r.2) = some 100 ∧
    (flv_next (flvOf (tsTag 0 0 250 0))).map (fun r => flv_get_timestamp r.2) = some 250 ∧
    (streaming calm (flvOf (tsTag 0 0 100 0 ++ tsTag 0 0 250 0))).map
        (fun r => (writes r.1, pause_after_write 1 r.1))
      = some ([tsTag 0 0 100 0, tsTag 0 0 250 0], 1000 * 100) ∧
    1000 * 100 ≠ 1000 * (250 - 100) ∧
    (streaming calm (flvOf (tsTag 0 0 250 0 ++ tsTag 0 0 100 0))).map
        (fun r => (writes r.1, pause_after_write 1 r.1))
      = some ([tsTag 0 0 250 0, tsTag 0 0 100 0], 1000 * 250) ∧
    1000 * 250 ≠ 0 := by
  refine ⟨by decide, by decide, by decide, by decide, by decide, by decide⟩

/-- C10 (amended): let the first two calls of `flv_next` succeed with timestamps t1 and t2 such
that 1000 * t1 and 1000 * (t2 - t1) are below 2^32 (pauses that the 32-bit parameter of
`usleep` can hold, at most 4294967 ms), and let the writes and polls of the first two passes
succeed with no signal. Then the loop returns, its first two writes are the two tags, the
pause asked for between the first and the second `RTMP_Write` is t1 ms (t1 minus the initial
`prevTimestamp` 0), and the pause asked for after the second `RTMP_Write` (before any third)
is t2 - t1 ms when t2 > t1 and none when t2 <= t1. Pauses are the values `usleep` receives,
in microseconds. -/
theorem C10_pause_follows_each_write (env : Nat → Iter) (f f1 f2 : flv) (n1 n2 : Int)
    (h1 : flv_next f = some (n1, f1)) (hn1 : 0 < n1)
    (h2 : flv_next f1 = some (n2, f2)) (hn2 : 0 < n2)
    (he0 : (env 0).signal = false ∧ 0 < (env 0).write_ret ∧ (env 0).select_ret ≠ -1)
    (he1 : (env 1).signal = false ∧ 0 < (env 1).write_ret ∧ (env 1).select_ret ≠ -1)
    (ht1 : 1000 * flv_get_timestamp f1 < 2 ^ 32)
    (ht2 : 1000 * (flv_get_timestamp f2 - flv_get_timestamp f1) < 2 ^ 32) :
    ∃ tr s j, streaming env f = some (tr, s, j) ∧
      (writes tr).take 2 = [(List.range n1.toNat).map (flv_get_tag f1),
        (List.range n2.toNat).map (flv_get_tag f2)] ∧
      pause_after_write 1 tr = 1000 * flv_get_timestamp f1 ∧
      pause_after_write 2 tr =
        if flv_get_timestamp f1 < flv_get_timestamp f2
        then 1000 * (flv_get_timestamp f2 - flv_get_timestamp f1) else 0 := by
  have c1 := flv_next_consumes f f1 n1 h1 hn1
  have c2 := flv_next_consumes f1 f2 n2 h2 hn2
  obtain ⟨evs1, hb1, hw1, hp1, hq1⟩ := loop_body_sent (env 0)
    { flv := f, prevTimestamp := 0, running := true, ret := EXIT_SUCCESS } n1 f1 h1 hn1
    he0.2.1 he0.2.2
  obtain ⟨evs2, hb2, hw2, hp2, _⟩ := loop_body_sent (env 1)
    { flv := f1,
      prevTimestamp := if 0 < flv_get_timestamp f1 then flv_get_timestamp f1 else 0,
      running := true, ret := EXIT_SUCCESS } n2 f2 h2 hn2 he1.2.1 he1.2.2
  have hprev : (if 0 < flv_get_timestamp f1 then flv_get_timestamp f1 else 0)
      = flv_get_timestamp f1 := by
    split <;> omega
  simp only [hprev] at hb1 hb2 hp1 hp2
  obtain ⟨fuel, hfuel⟩ : ∃ fuel, f.file.remaining + 2 = fuel + 1 + 1 := ⟨f.file.remaining, rfl⟩
  obtain ⟨r3, h3⟩ := stream_loop_total fuel env 2 _ (by omega)
    (fun _ => (by simp only; omega :
      ({ flv := f2,
         prevTimestamp := if flv_get_timestamp f1 < flv_get_timestamp f2
           then flv_get_timestamp f2 else flv_get_timestamp f1,
         running := true, ret := EXIT_SUCCESS } : LoopState).flv.file.remaining + 2 ≤ fuel))
  have hu3 := stream_loop_usleep_before_write fuel env 2 _ r3 h3
  have hs2 := stream_loop_pass fuel env 1 _ _ evs2 rfl he1.1 hb2 r3 h3
  have hs1 := stream_loop_pass (fuel + 1) env 0 _ _ evs1 rfl he0.1 hb1 _ hs2
  refine ⟨evs1 ++ (evs2 ++ r3.1), r3.2.1, r3.2.2, ?_, ?_, ?_, ?_⟩
  · unfold streaming
    rw [hfuel]
    exact hs1
  · simp only [hw1, hw2, List.take_succ_cons, List.take_zero]
  · rw [hp1]
    have hz : usleep_before_write (evs2 ++ r3.1) = 0 := by
      rcases loop_body_usleep_before_write _ _ _ _ _ hb2 r3.1 with h0 | h0
      · exact h0
      · rw [h0]; exact hu3
    rw [hz]
    unfold ULONG_BITS USECONDS_BITS
    split
    · rw [Nat.sub_zero, Nat.mod_eq_of_lt (a := 1000 * flv_get_timestamp f1) (by omega),
        Nat.mod_eq_of_lt ht1]
      rfl
    · omega
  · rw [hq1 0, hp2, hu3]
    unfold ULONG_BITS USECONDS_BITS
    split
    · rw [Nat.mod_eq_of_lt
          (a := 1000 * (flv_get_timestamp f2 - flv_get_timestamp f1)) (by omega),
        Nat.mod_eq_of_lt ht2]
      rfl
    · rfl

/-- C10 (amended) on timestamps 100 then 250: 100 ms between the writes, 150 ms after the
second. -/
theorem C10_pause_follows_each_write_witness :
    flv_next (flvOf pacedSource) = some (15, pacedRead1) ∧ (0 : Int) < 15 ∧
    flv_next pacedRead1 = some (15, pacedRead2) ∧
    ((calm 0).signal = false ∧ 0 < (calm 0).write_ret ∧ (calm 0).select_ret ≠ -1) ∧
    ((calm 1).signal = false ∧ 0 < (calm 1).write_ret ∧ (calm 1).select_ret ≠ -1) ∧
    flv_get_timestamp pacedRead1 = 100 ∧ flv_get_timestamp pacedRead2 = 250 ∧
    1000 * flv_get_timestamp pacedRead1 < 2 ^ 32 ∧
    1000 * (flv_get_timestamp pacedRead2 - flv_get_timestamp pacedRead1) < 2 ^ 32 ∧
    ∃ tr s j, streaming calm (flvOf pacedSource) = some (tr, s, j) ∧
      (writes tr).take 2 = [(List.range (15 : Int).toNat).map (flv_get_tag pacedRead1),
        (List.range (15 : Int).toNat).map (flv_get_tag pacedRead2)] ∧
      pause_after_write 1 tr = 1000 * flv_get_timestamp pacedRead1 ∧
      pause_after_write 2 tr =
        if flv_get_timestamp pacedRead1 < flv_get_timestamp pacedRead2
        then 1000 * (flv_get_timestamp pacedRead2 - flv_get_timestamp pacedRead1) else 0 :=
  ⟨rfl, by decide, rfl, by decide, by decide, by decide, by decide, by decide, by decide,
    C10_pause_follows_each_write calm (flvOf pacedSource) pacedRead1 pacedRead2 15 15
      rfl (by decide) rfl (by decide) (by decide) (by decide) (by decide) (by decide)⟩

/-- C11 (defect): a pass that handles the valid tag with timestamp bytes 00 00 00 80 (timestamp
0x80000000) while `prevTimestamp` is 0 stores 0xFFFFFFFF80000000 in `prevTimestamp` and
calls `usleep` once, with the value 0, not with 1000 * 0x80000000: the getter sign-extends
the timestamp, the product 1000 * 0xFFFFFFFF80000000 wraps at 2^64 to 18446741926225903616,
and the 32-bit parameter of `usleep` receives the low 32 bits of that, 0. -/
theorem C11_pacing_wraps_on_sign_extended_timestamp :
    (loop_body (calm 0) (loop_entry (flvOf (tsTag 0 0 0 0x80)))).map
        (fun r => (usleep_calls r.1, r.2.1.prevTimestamp, r.2.2))
      = some ([0], 0xFFFFFFFF80000000, false) ∧
    1000 * (0xFFFFFFFF80000000 - 0) % 2 ^ ULONG_BITS = 18446741926225903616 ∧
    18446741926225903616 % 2 ^ USECONDS_BITS = 0 ∧
    0 ≠ 1000 * (0x80000000 - 0) ∧
    18446741926225903616 ≠ 1000 * (0x80000000 - 0) ∧
    18446741926225903616 ≠ 1000 * (0xFFFFFFFF80000000 - 0) := by
  refine ⟨by decide, by decide, by decide, by decide, by decide, by decide⟩

/-- C12 (defect): main.c, given `-f <file> <url>` and a file whose first tag has a footer that
does not match, leaves the loop by `goto restoreSig` after `flv_next` has returned -1 and
returns `EXIT_FAILURE` having called `RTMP_Free` but not `flv_close`; the same happens when
`RTMP_Write` fails. rtmp.c on the same file calls `RTMP_Free` and then `flv_close`. -/
theorem C12_main_c_error_exit_skips_flv_close :
    flvcast.main [Opt.f 2] 1 (calmWorld (some (flvHeader ++ badFooterTag)))
      = some ([Event.RTMP_LogSetLevel, Event.RTMP_LogSetOutput, Event.RTMP_Alloc true,
          Event.RTMP_Init, Event.RTMP_SetupURL true, Event.RTMP_EnableWrite,
          Event.RTMP_Connect true, Event.RTMP_ConnectStream true, Event.RTMP_Socket,
          Event.signal_install, Event.flv_open true, Event.flv_get_tag, Event.flv_next (-1),
          Event.signal_restore, Event.RTMP_Free], Outcome.exit EXIT_FAILURE) ∧
    (flvcast.main [Opt.f 2] 1
        { calmWorld (some (flvHeader ++ emptyTag)) with
          env := fun _ => { signal := false, write_ret := 0, select_ret := 0,
                            readable := false, packet := false } }).map
        (fun r => (r.1.count Event.flv_close, r.1.count Event.RTMP_Free, r.2))
      = some (0, 1, Outcome.exit EXIT_FAILURE) ∧
    rtmp.main 3 (calmWorld (some (flvHeader ++ badFooterTag)))
      = some ([Event.flv_open true, Event.RTMP_LogSetLevel, Event.RTMP_LogSetOutput,
          Event.RTMP_Alloc true, Event.RTMP_Init, Event.RTMP_SetupURL true,
          Event.RTMP_EnableWrite, Event.RTMP_Connect true, Event.RTMP_ConnectStream true,
          Event.RTMP_Socket, Event.signal_install, Event.flv_get_tag, Event.flv_next (-1),
          Event.signal_restore, Event.RTMP_Free, Event.flv_close],
        Outcome.exit EXIT_FAILURE) := by
  refine ⟨by decide, by decide, by decide⟩

/-- C13 (defect): main.c, given `-f <file> <url>` for a file that cannot be opened, with the
signal coming after the first test of the outer loop and before the first test of the loop
that reads tags. `running` is 0 when the loop that reads tags is first tested and no
`flv_next` and no `RTMP_Write` call is made, but main.c calls `flv_close(NULL)`, which loads
through the `NULL` pointer, and never reaches `RTMP_Free`: the transport it holds is not
released. rtmp.c in the same world calls `RTMP_Free` once and then `flv_close(NULL)`. -/
theorem C13_cancel_after_failed_open_skips_RTMP_Free :
    flv_open (lateCancelWorld none).mem (lateCancelWorld none).content = none ∧
    (lateCancelWorld none).outer_signal 0 = false ∧
    ((lateCancelWorld none).env 0).signal = true ∧
    flvcast.main [Opt.f 2] 1 (lateCancelWorld none)
      = some ([Event.RTMP_LogSetLevel, Event.RTMP_LogSetOutput, Event.RTMP_Alloc true,
          Event.RTMP_Init, Event.RTMP_SetupURL true, Event.RTMP_EnableWrite,
          Event.RTMP_Connect true, Event.RTMP_ConnectStream true, Event.RTMP_Socket,
          Event.signal_install, Event.flv_open false, Event.flv_get_tag_NULL,
          Event.flv_close_NULL], Outcome.fault) ∧
    (flvcast.main [Opt.f 2] 1 (lateCancelWorld none)).map
        (fun r => r.1.count Event.RTMP_Free) = some 0 ∧
    rtmp.main 3 (lateCancelWorld none)
      = some ([Event.flv_open false, Event.RTMP_LogSetLevel, Event.RTMP_LogSetOutput,
          Event.RTMP_Alloc true, Event.RTMP_Init, Event.RTMP_SetupURL true,
          Event.RTMP_EnableWrite, Event.RTMP_Connect true, Event.RTMP_ConnectStream true,
          Event.RTMP_Socket, Event.signal_install, Event.flv_get_tag_NULL,
          Event.signal_restore, Event.RTMP_Free, Event.flv_close_NULL], Outcome.fault) := by
  refine ⟨rfl, rfl, rfl, by decide, by decide, by decide⟩

/-- C14: for every source and every schedule of signals and of results of the collaborators, the
loop returns, and the byte strings it has handed to `RTMP_Write` are, in order, the first
tags that successive successful calls of `flv_next` return, each exactly once; each is a
whole tag (11 + its payload length + 4 bytes), and joined together they are the bytes of
the file from the starting position on, with nothing left out in between. -/
theorem C14_writes_follow_reads_in_order (env : Nat → Iter) (f : flv) :
    ∃ tr s j, streaming env f = some (tr, s, j) ∧
      writes tr <+: next_tags (f.file.remaining + 2) f ∧
      (∀ b ∈ writes tr, whole_tag b) ∧
      (writes tr).flatten <+: f.file.data.drop f.file.pos := by
  obtain ⟨⟨tr, s, j⟩, h⟩ := streaming_total env f
  refine ⟨tr, s, j, h, ?_⟩
  unfold streaming at h
  obtain ⟨a1, a2, a3⟩ := stream_loop_writes _ env 0 _ _ h
  exact ⟨a1, a3, a2⟩

/-- C15: with the transport connected and the source opened (main.c in file mode, running at the
first test of its outer loop), the loop returns and both programs return its `ret` after the
cleanup calls. That status is `EXIT_FAILURE` exactly when, in some pass the loop made,
`flv_next` returned a negative value, `RTMP_Write` returned a value <= 0, or `select`
returned -1; the failed call is then the last call of the loop, so only cleanup calls follow
it. In every other run (end of stream, cancellation) the status is `EXIT_SUCCESS` and the
loop was left with `running` cleared. -/
theorem C15_exit_status_reports_failures (w : World) (opts : List Opt) (positional : Nat)
    (o : Options) (f : flv)
    (ha : w.alloc = true) (hu : w.setupURL = true) (hc : w.connect = true)
    (hcs : w.connectStream = true) (hparse : parse_arguments opts positional = some o)
    (hmode : o.playMode = PlayMode.file) (hout : w.outer_signal 0 = false)
    (hopen : flv_open w.mem w.content = some f) :
    ∃ tr s j, streaming w.env f = some (tr, s, j) ∧
      rtmp.main 3 w = some
        ([Event.flv_open true, Event.RTMP_LogSetLevel, Event.RTMP_LogSetOutput,
            Event.RTMP_Alloc true, Event.RTMP_Init, Event.RTMP_SetupURL true,
            Event.RTMP_EnableWrite, Event.RTMP_Connect true, Event.RTMP_ConnectStream true,
            Event.RTMP_Socket, Event.signal_install, Event.flv_get_tag]
          ++ tr ++ [Event.signal_restore, Event.RTMP_Free, Event.flv_close],
        Outcome.exit s.ret) ∧
      flvcast.main opts positional w = some
        ([Event.RTMP_LogSetLevel, Event.RTMP_LogSetOutput, Event.RTMP_Alloc true,
            Event.RTMP_Init, Event.RTMP_SetupURL true, Event.RTMP_EnableWrite,
            Event.RTMP_Connect true, Event.RTMP_ConnectStream true, Event.RTMP_Socket,
            Event.signal_install, Event.flv_open true, Event.flv_get_tag]
          ++ tr ++ (if j = true then [] else [Event.flv_close])
          ++ [Event.signal_restore, Event.RTMP_Free],
        Outcome.exit s.ret) ∧
      (s.ret = EXIT_FAILURE ↔
        ∃ p ∈ passes (f.file.remaining + 2) w.env 0 (loop_entry f),
          pass_fails (w.env p.1) p.2 = true) ∧
      (s.ret = EXIT_FAILURE → ∃ pre c, tr = pre ++ [c] ∧ c.ends_failed_run = true) ∧
      (s.ret ≠ EXIT_FAILURE → s.ret = EXIT_SUCCESS ∧ s.running = false) := by
  obtain ⟨⟨tr, s, j⟩, h⟩ := streaming_total w.env f
  have hr := rtmp_main_streams w f tr s j hopen ha hc hcs h
  rw [hu] at hr
  have hm := flvcast_main_streams opts positional o w f tr s j hparse hmode hopen ha hu hc hcs
    hout h
  refine ⟨tr, s, j, h, hr, hm, ?_⟩
  unfold streaming at h
  obtain ⟨a1, a2, a3, a4⟩ := stream_loop_status _ w.env 0 _ _ h
  simp only at a1 a2 a3 a4
  have hne : EXIT_SUCCESS ≠ EXIT_FAILURE := by decide
  cases j with
  | true =>
    simp only [if_true] at a2
    refine ⟨⟨fun _ => a1.mp rfl, fun _ => a2⟩, fun _ => a3 rfl, fun hn => absurd a2 hn⟩
  | false =>
    simp only [Bool.false_eq_true, if_false] at a2
    refine ⟨⟨fun hf => ?_, fun hp => ?_⟩, fun hf => ?_, fun _ => ⟨a2, a4 rfl⟩⟩
    · rw [a2] at hf; exact absurd hf hne
    · have := a1.mpr hp
      simp at this
    · rw [a2] at hf; exact absurd hf hne

/-- C15 on a file with one tag in a world where every call succeeds: both programs return
`EXIT_SUCCESS`. -/
theorem C15_exit_status_reports_failures_witness :
    (calmWorld (some (flvHeader ++ emptyTag))).alloc = true ∧
    parse_arguments [Opt.f 2] 1 = some fileOptions ∧
    fileOptions.playMode = PlayMode.file ∧
    flv_open (calmWorld (some (flvHeader ++ emptyTag))).mem
        (calmWorld (some (flvHeader ++ emptyTag))).content
      = some (openedOn emptyTag) ∧
    ∃ tr s j, streaming (calmWorld (some (flvHeader ++ emptyTag))).env (openedOn emptyTag)
        = some (tr, s, j) ∧
      rtmp.main 3 (calmWorld (some (flvHeader ++ emptyTag))) = some
        ([Event.flv_open true, Event.RTMP_LogSetLevel, Event.RTMP_LogSetOutput,
            Event.RTMP_Alloc true, Event.RTMP_Init, Event.RTMP_SetupURL true,
            Event.RTMP_EnableWrite, Event.RTMP_Connect true, Event.RTMP_ConnectStream true,
            Event.RTMP_Socket, Event.signal_install, Event.flv_get_tag]
          ++ tr ++ [Event.signal_restore, Event.RTMP_Free, Event.flv_close],
        Outcome.exit s.ret) ∧
      flvcast.main [Opt.f 2] 1 (calmWorld (some (flvHeader ++ emptyTag))) = some
        ([Event.RTMP_LogSetLevel, Event.RTMP_LogSetOutput, Event.RTMP_Alloc true,
            Event.RTMP_Init, Event.RTMP_SetupURL true, Event.RTMP_EnableWrite,
            Event.RTMP_Connect true, Event.RTMP_ConnectStream true, Event.RTMP_Socket,
            Event.signal_install, Event.flv_open true, Event.flv_get_tag]
          ++ tr ++ (if j = true then [] else [Event.flv_close])
          ++ [Event.signal_restore, Event.RTMP_Free],
        Outcome.exit s.ret) ∧
      (s.ret = EXIT_FAILURE ↔
        ∃ p ∈ passes ((openedOn emptyTag).file.remaining + 2)
            (calmWorld (some (flvHeader ++ emptyTag))).env 0 (loop_entry (openedOn emptyTag)),
          pass_fails ((calmWorld (some (flvHeader ++ emptyTag))).env p.1) p.2 = true) ∧
      (s.ret = EXIT_FAILURE → ∃ pre c, tr = pre ++ [c] ∧ c.ends_failed_run = true) ∧
      (s.ret ≠ EXIT_FAILURE → s.ret = EXIT_SUCCESS ∧ s.running = false) :=
  ⟨rfl, rfl, rfl, rfl,
    C15_exit_status_reports_failures (calmWorld (some (flvHeader ++ emptyTag))) [Opt.f 2] 1
      fileOptions (openedOn emptyTag) rfl rfl rfl rfl rfl rfl rfl rfl⟩

/-- C16 (defect): when the file cannot be opened, `flv_open` returns `NULL` and both programs go
on to use the handle: rtmp.c and main.c call `flv_get_tag(NULL)` and then `flv_next(NULL)`,
which loads through the `NULL` pointer; and when a signal has come before the first test
of the loop, rtmp.c calls `flv_close(NULL)` after `RTMP_Free`. -/
theorem C16_failed_open_handle_is_used :
    flv_open (calmWorld none).mem (calmWorld none).content = none ∧
    rtmp.main 3 (calmWorld none)
      = some ([Event.flv_open false, Event.RTMP_LogSetLevel, Event.RTMP_LogSetOutput,
          Event.RTMP_Alloc true, Event.RTMP_Init, Event.RTMP_SetupURL true,
          Event.RTMP_EnableWrite, Event.RTMP_Connect true, Event.RTMP_ConnectStream true,
          Event.RTMP_Socket, Event.signal_install, Event.flv_get_tag_NULL,
          Event.flv_next_NULL], Outcome.fault) ∧
    flvcast.main [Opt.f 2] 1 (calmWorld none)
      = some ([Event.RTMP_LogSetLevel, Event.RTMP_LogSetOutput, Event.RTMP_Alloc true,
          Event.RTMP_Init, Event.RTMP_SetupURL true, Event.RTMP_EnableWrite,
          Event.RTMP_Connect true, Event.RTMP_ConnectStream true, Event.RTMP_Socket,
          Event.signal_install, Event.flv_open false, Event.flv_get_tag_NULL,
          Event.flv_next_NULL], Outcome.fault) ∧
    rtmp.main 3 (cancelledWorld none)
      = some ([Event.flv_open false, Event.RTMP_LogSetLevel, Event.RTMP_LogSetOutput,
          Event.RTMP_Alloc true, Event.RTMP_Init, Event.RTMP_SetupURL true,
          Event.RTMP_EnableWrite, Event.RTMP_Connect true, Event.RTMP_ConnectStream true,
          Event.RTMP_Socket, Event.signal_install, Event.flv_get_tag_NULL,
          Event.signal_restore, Event.RTMP_Free, Event.flv_close_NULL], Outcome.fault) := by
  refine ⟨rfl, by decide, by decide, by decide⟩

/-- C17: a source that starts with 'F','L','V',0x01, any content-flags byte, the data offset
00 00 00 09 and any four bytes in the previous-tag-size field (so at least 13 bytes) is
opened by `flv_open` whenever `malloc` succeeds: the handle is not `NULL`, its file
position is 13 over the unchanged content, and when 11 more bytes follow, the first
`flv_next` returns with the bytes at offsets 13..23 as the tag header in the buffer. -/
theorem C17_open_accepts_any_flags_and_size0 (buf : Nat → UChar) (sz : Nat)
    (flags b9 b10 b11 b12 : UChar) (rest : List UChar) :
    ∃ f, flv_open (some (buf, sz))
        (some ([0x46, 0x4C, 0x56, 0x01, flags, 0, 0, 0, 9, b9, b10, b11, b12] ++ rest))
        = some f ∧
      f.file.pos = 13 ∧
      f.file.data = [0x46, 0x4C, 0x56, 0x01, flags, 0, 0, 0, 9, b9, b10, b11, b12] ++ rest ∧
      (11 ≤ rest.length → ∃ r f1, flv_next f = some (r, f1) ∧
        ∀ i, i < 11 → f1.tag i = rest.getD i 0) := by
  have hlen : ([0x46, 0x4C, 0x56, 0x01, flags, 0, 0, 0, 9, b9, b10, b11, b12] ++ rest).length
      = 13 + rest.length := by simp; omega
  generalize hd : [0x46, 0x4C, 0x56, 0x01, flags, 0, 0, 0, 9, b9, b10, b11, b12] ++ rest = d
    at hlen
  have hb : ∀ i, i < 13 → d.getD i 0
      = ([0x46, 0x4C, 0x56, 0x01, flags, 0, 0, 0, 9, b9, b10, b11, b12] : List UChar).getD i 0 := by
    intro i hi
    rw [← hd, List.getD_eq_getElem?_getD, List.getD_eq_getElem?_getD,
      List.getElem?_append_left (by simpa using hi)]
  have hr : ∀ i, d.getD (13 + i) 0 = rest.getD i 0 := by
    intro i
    rw [← hd, List.getD_eq_getElem?_getD, List.getD_eq_getElem?_getD,
      List.getElem?_append_right (by simp)]
    simp
  unfold flv_open fopen
  simp only []
  rw [show FLV_FILE_HEADER_SIZE = 9 from rfl,
    fread_full buf 0 9 { data := d, pos := 0, eof := false }
      (by unfold FLV_MAX_TAG_SIZE FLV_TAG_HEADER_SIZE; omega) (by omega)
      (by simp only; omega)]
  simp only [ne_eq, not_true_eq_false, if_false]
  have hw := store_window buf 0 9 { data := d, pos := 0, eof := false } (by simp only; omega)
  simp only [FILE.byteAt, Nat.zero_add, Nat.zero_le, true_and, Nat.sub_zero] at hw
  have h0 : u32be (store buf 0 (List.take 9 (List.drop 0 d))) 0 = 0x464C5601 := by
    rw [u32be_eq, hw 0, hw 1, hw 2, hw 3]
    simp only [Nat.zero_add, show (0 : Nat) < 9 by omega, show (1 : Nat) < 9 by omega,
      show (2 : Nat) < 9 by omega, show (3 : Nat) < 9 by omega, if_true,
      hb 0 (by omega), hb 1 (by omega), hb 2 (by omega), hb 3 (by omega),
      List.getD_cons_zero, List.getD_cons_succ, be32]
    decide
  have h5 : u32be (store buf 0 (List.take 9 (List.drop 0 d))) 5 = 9 := by
    rw [u32be_eq, hw 5, hw (5 + 1), hw (5 + 2), hw (5 + 3)]
    simp only [show (5 : Nat) < 9 by omega, show (5 + 1 : Nat) < 9 by omega,
      show (5 + 2 : Nat) < 9 by omega, show (5 + 3 : Nat) < 9 by omega, if_true,
      hb 5 (by omega), hb (5 + 1) (by omega), hb (5 + 2) (by omega), hb (5 + 3) (by omega),
      List.getD_cons_zero, List.getD_cons_succ, be32]
    decide
  rw [if_neg (by rw [not_not]; exact h0), h5]
  simp only [ne_eq, not_true_eq_false, if_false]
  rw [show FLV_TAG_FOOTER_SIZE = 4 from rfl,
    fread_full _ 0 4 { data := d, pos := 0 + 9, eof := false }
      (by unfold FLV_MAX_TAG_SIZE FLV_TAG_HEADER_SIZE; omega) (by omega)
      (by simp only; omega)]
  simp only [ne_eq, not_true_eq_false, if_false]
  refine ⟨_, rfl, rfl, rfl, ?_⟩
  intro h11
  obtain ⟨r, f1, e, hh⟩ := flv_next_header_bytes
    { file := { data := d, pos := 0 + 9 + 4, eof := false },
      tag := store (store buf 0 (List.take 9 (List.drop 0 d))) 0
        (List.take 4 (List.drop (0 + 9) d)),
      tagSize := sz } (by simp only; omega)
  refine ⟨r, f1, e, ?_⟩
  intro i hi
  rw [hh i hi]
  simp only [FILE.byteAt]
  exact hr i

/-- C18 (defect): the arguments `-s -p <list> <url>` name exactly one of -f, -p, -e, give no -l
with -e, give -s together with -p and have one url, yet main.c rejects them with
`EXIT_FAILURE` before any call, because `-s` is refused unless a `-p` has come before it;
in the other order, `-p <list> -s <url>`, they are accepted. And `-l 0 -e <script> <url>`,
which gives a loop count together with -e, is accepted, because `-e` tests `loops` for
non-zero; in the other order, `-e <script> -l 0 <url>`, it is rejected. -/
theorem C18_option_order_changes_acceptance :
    cli_as_specified [Opt.s, Opt.p 2] 1 = true ∧
    (parse_arguments [Opt.s, Opt.p 2] 1).isSome = false ∧
    flvcast.main [Opt.s, Opt.p 2] 1 (calmWorld none) = some ([], Outcome.exit EXIT_FAILURE) ∧
    cli_as_specified [Opt.p 2, Opt.s] 1 = true ∧
    (parse_arguments [Opt.p 2, Opt.s] 1).isSome = true ∧
    cli_as_specified [Opt.l 0, Opt.e 2] 1 = false ∧
    (parse_arguments [Opt.l 0, Opt.e 2] 1).isSome = true ∧
    cli_as_specified [Opt.e 2, Opt.l 0] 1 = false ∧
    (parse_arguments [Opt.e 2, Opt.l 0] 1).isSome = false := by
  refine ⟨by decide, by decide, by decide, by decide, by decide, by decide, by decide,
    by decide, by decide⟩

/-- C19 (defect): on a stream of two tags with timestamps 0x80000000 and 5, starting from
`prevTimestamp = 0`, the run ends with `prevTimestamp = 0xFFFFFFFF80000000` having called
`usleep` once, with the value 0: the pauses asked for sum to 0 microseconds, which is not
1000 times `prevTimestamp` (nor 1000 * 0x80000000). The getter sign-extends the first
timestamp, the product of the pause wraps at 2^64 to 18446741926225903616, and the 32-bit
parameter of `usleep` receives the low 32 bits of that. -/
theorem C19_pacing_sum_breaks_on_sign_extended_timestamp :
    (streaming calm (flvOf (tsTag 0 0 0 0x80 ++ tsTag 0 0 5 0))).map
        (fun r => (usleep_calls r.1, usleep_total r.1, r.2.1.prevTimestamp))
      = some ([0], 0, 0xFFFFFFFF80000000) ∧
    1000 * (0xFFFFFFFF80000000 - 0) % 2 ^ ULONG_BITS % 2 ^ USECONDS_BITS = 0 ∧
    0 ≠ 1000 * 0xFFFFFFFF80000000 ∧
    0 ≠ 1000 * 0x80000000 ∧
    18446741926225903616 ≠ 1000 * 0xFFFFFFFF80000000 ∧
    18446741926225903616 ≠ 1000 * 0x80000000 := by
  refine ⟨by decide, by decide, by decide, by decide, by decide, by decide⟩

/-- C20: for every object and every value, `flv_set_timestamp` changes no byte of the buffer
outside 4..7 and leaves `tagSize` and the file alone; so the type byte, the payload length
(bytes 1..3), the stream id (bytes 8..10), every payload and footer byte, what
`flv_get_tag_size` returns and the footer check of `flv_next` (footer read at 11 + payload
length against 11 + payload length) are as before. -/
theorem C20_set_timestamp_changes_bytes_4_to_7_only (f : flv) (v : Nat) :
    (∀ i, i < 4 ∨ 7 < i → (flv_set_timestamp f v).tag i = f.tag i) ∧
    (flv_set_timestamp f v).tagSize = f.tagSize ∧
    (flv_set_timestamp f v).file = f.file ∧
    flv_get_tag_size (flv_set_timestamp f v) = flv_get_tag_size f ∧
    u24be (flv_set_timestamp f v).tag 1 = u24be f.tag 1 ∧
    u24be (flv_set_timestamp f v).tag 8 = u24be f.tag 8 ∧
    u32be_at (flv_set_timestamp f v).tag
        (FLV_TAG_HEADER_SIZE + u24be (flv_set_timestamp f v).tag 1)
      = u32be_at f.tag (FLV_TAG_HEADER_SIZE + u24be f.tag 1) ∧
    (u32be f.tag (FLV_TAG_HEADER_SIZE + u24be f.tag 1) = FLV_TAG_HEADER_SIZE + u24be f.tag 1 →
      u32be (flv_set_timestamp f v).tag
          (FLV_TAG_HEADER_SIZE + u24be (flv_set_timestamp f v).tag 1)
        = FLV_TAG_HEADER_SIZE + u24be (flv_set_timestamp f v).tag 1) := by
  have hout : ∀ i, i < 4 ∨ 7 < i → (flv_set_timestamp f v).tag i = f.tag i := by
    intro i hi
    have h4 : i ≠ 4 := by omega
    have h5 : i ≠ 5 := by omega
    have h6 : i ≠ 6 := by omega
    have h7 : i ≠ 7 := by omega
    simp [flv_set_timestamp, Function.update, h4, h5, h6, h7]
  have hlen : u24be (flv_set_timestamp f v).tag 1 = u24be f.tag 1 := by
    unfold u24be
    rw [hout 1 (by omega), hout (1 + 1) (by omega), hout (1 + 2) (by omega)]
  have hfoot : ∀ k, u32be (flv_set_timestamp f v).tag (FLV_TAG_HEADER_SIZE + k)
      = u32be f.tag (FLV_TAG_HEADER_SIZE + k) := by
    intro k
    unfold u32be FLV_TAG_HEADER_SIZE
    rw [hout (11 + k) (by omega), hout (11 + k + 1) (by omega), hout (11 + k + 2) (by omega),
      hout (11 + k + 3) (by omega)]
  refine ⟨hout, rfl, rfl, rfl, hlen, ?_, ?_, ?_⟩
  · unfold u24be
    rw [hout 8 (by omega), hout (8 + 1) (by omega), hout (8 + 2) (by omega)]
  · rw [hlen]
    unfold u32be_at
    rw [hfoot]
  · intro h
    rw [hlen, hfoot]
    exact h

end Flvcast
